import Mathlib

/-!
# EthereumRPC: dispatch and correlation

A shallow embedding of `libethereum/EthereumRPC.cpp`: the server-side
dispatcher `EthereumRPCServer::receiveMessage`, the client-side receive path
`EthereumRPCClient::receiveMessage`, `EthereumRPCClient::performRequest` and
the typed client methods built on it.

The file has two halves: the definitions (wire values, RLP items, the
dispatcher, the client), then the theorems.
-/

namespace EthereumRPC

/-! ## Bytes and integers -/

/-- One octet. -/
abbrev Byte := Fin 256

/-- The C++ `bytes`: a vector of octets. -/
abbrev bytes := List Byte

/-- The C++ `u256`: an unsigned integer below `2 ^ 256`. -/
abbrev u256 := Fin (2 ^ 256)

/-- A fixed-size hash `FixedHash<N>`: exactly `N` octets. -/
abbrev FixedHash (N : Nat) := { b : bytes // b.length = N }

/-- The C++ `Secret` (`h256`). -/
abbrev Secret := FixedHash 32

/-- The C++ `Address` (`h160`). -/
abbrev Address := FixedHash 20

/-- The conversion of a C++ `int` to `unsigned`: reduction modulo `2 ^ 32`. -/
def unsignedOfInt (i : Int) : Nat := (i % 4294967296).toNat

/-- The conversion of a C++ `unsigned` to `int`: the two's-complement reading
of the low 32 bits. -/
def intOfUnsigned (n : Nat) : Int :=
  if n % 4294967296 < 2147483648 then ((n % 4294967296 : Nat) : Int)
  else ((n % 4294967296 : Nat) : Int) - 4294967296

/-- Big-endian value of a byte string. -/
def fromBigEndian (b : bytes) : Nat := b.foldl (fun acc x => acc * 256 + x.val) 0

/-- Big-endian bytes of `n` without leading zero octets, at most `width` of
them (the low `width` octets when `n` does not fit). Zero is the empty
string. -/
def toCompactBigEndian : (width : Nat) → Nat → bytes
  | 0, _ => []
  | w + 1, n => if n = 0 then [] else toCompactBigEndian w (n / 256) ++ [Fin.ofNat (n % 256)]

/-! ## RLP items -/

/-- The exceptions that the embedded code can raise. -/
inductive Exn where
  /-- A typed read of an RLP item failed (`BadCast`, the spec's
  MalformedPayloadError). -/
  | BadCast
  /-- Raised by `performRequest` when the wait ends without a response. -/
  | RPCRequestTimeout
  /-- Raised by `std::promise::set_value` on a promise that already holds a
  value. -/
  | future_error
  /-- Anything raised by an operation of the node interface. -/
  | capability (code : Nat)
  deriving DecidableEq, Repr

/-- Modelled from the spec: the byte-level RLP coder of libdevcore (classes
`RLP` and `RLPStream`) is not among the sources. A payload is "an ordered,
self-describing encoded structure - a list of typed fields or nested lists";
it is represented here by the item that its bytes encode: `null` for the empty
byte string, `data` for a byte string (integers and hashes are byte strings),
`list` for a list of items. -/
inductive RLP where
  | null
  | data (b : bytes)
  | list (items : List RLP)

namespace RLP

/-- Modelled from the spec: `RLP::operator[]`, the item at position `i` of a
list. Out of range, or on an item that is not a list, the result is the null
item, every typed read of which fails (so that "decode(payload, index) fails
if the index is out of range"). -/
def idx : RLP → Nat → RLP
  | list items, i => items.getD i null
  | _, _ => null

/-- Modelled from the spec: `RLP::toHash<FixedHash<N>>()`; fails when "a
fixed-size type (hash, address) receives the wrong byte length", or when the
item is no byte string. -/
def toHash (N : Nat) : RLP → Except Exn (FixedHash N)
  | data b => if h : b.length = N then .ok ⟨b, h⟩ else .error .BadCast
  | _ => .error .BadCast

/-- Modelled from the spec: `RLP::toInt<u256>()`; the big-endian value of a
byte string of at most 32 octets, a failure on anything else. -/
def toInt256 : RLP → Except Exn u256
  | data b => if b.length ≤ 32 then .ok (Fin.ofNat' (2 ^ 256) (fromBigEndian b)) else .error .BadCast
  | _ => .error .BadCast

/-- Modelled from the spec: `RLP::toInt()`, that is `toInt<unsigned>()`; the
big-endian value of a byte string of at most 4 octets, a failure on anything
else. -/
def toInt : RLP → Except Exn Nat
  | data b => if b.length ≤ 4 then .ok (fromBigEndian b % 4294967296) else .error .BadCast
  | _ => .error .BadCast

/-- Modelled from the spec: `RLP::toBytes()` (and `toBytesConstRef()`); the
octets of a byte string, a failure on anything else. -/
def toBytes : RLP → Except Exn bytes
  | data b => .ok b
  | _ => .error .BadCast

/-- Modelled from the spec: the items that a range-`for` over an `RLP` visits:
the elements of a list, nothing for any other item. -/
def items : RLP → List RLP
  | list l => l
  | _ => []

/-- The item that encodes a fixed-size hash: its `N` octets. -/
def ofHash {N : Nat} (h : FixedHash N) : RLP := data h.val

/-- The item that encodes a `u256`: its big-endian octets without leading
zeros. -/
def ofU256 (v : u256) : RLP := data (toCompactBigEndian 32 v.val)

/-- The item that encodes an `unsigned`. -/
def ofUnsigned (n : Nat) : RLP := data (toCompactBigEndian 4 (n % 4294967296))

end RLP

/-! ## RLPStream -/

/-- Modelled from the spec: `RLPStream` of libdevcore, which is not among the
sources. `m_out` holds the items completed at the top level, in the order
they were appended ("fields are appended in call order"); `m_listStack` holds
the lists still open, innermost first, each with the number of items it still
expects and the items it has received. -/
structure RLPStream where
  m_out : List RLP
  m_listStack : List (Nat × List RLP)

namespace RLPStream

/-- The empty stream, `RLPStream()`. -/
def empty : RLPStream := ⟨[], []⟩

/-- The bookkeeping of `noteAppended`: the completed item `x` goes to the
innermost open list, which is closed, and appended in turn to the list around
it, when `x` was the last item it expected. -/
def noteAppended (out : List RLP) : List (Nat × List RLP) → RLP → RLPStream
  | [], x => ⟨out ++ [x], []⟩
  | (n, acc) :: rest, x =>
    if n ≤ 1 then noteAppended out rest (RLP.list (acc ++ [x]))
    else ⟨out, (n - 1, acc ++ [x]) :: rest⟩

/-- Appends one completed item. -/
def appendItem (s : RLPStream) (x : RLP) : RLPStream := noteAppended s.m_out s.m_listStack x

/-- The call `appendList(n)`: opens a list of `n` items; a list of no items
is complete at once. -/
def appendList (s : RLPStream) (n : Nat) : RLPStream :=
  if n = 0 then s.appendItem (RLP.list []) else ⟨s.m_out, (n, []) :: s.m_listStack⟩

/-- The constructor `RLPStream(n)`: a stream that starts with a list of `n`
items. -/
def ofList (n : Nat) : RLPStream := empty.appendList n

/-- Appends a fixed-size hash (`s << h`). -/
def appendHash {N : Nat} (s : RLPStream) (h : FixedHash N) : RLPStream := s.appendItem (RLP.ofHash h)

/-- Appends a `u256` (`s << v`). -/
def appendU256 (s : RLPStream) (v : u256) : RLPStream := s.appendItem (RLP.ofU256 v)

/-- Appends a byte string (`s << b`, `s.append(ref)`). -/
def appendBytes (s : RLPStream) (b : bytes) : RLPStream := s.appendItem (RLP.data b)

/-- Appends a C++ `int` (`s << _block`): the value is converted to
`unsigned` and appended as an integer. -/
def appendInt (s : RLPStream) (i : Int) : RLPStream := s.appendItem (RLP.ofUnsigned (unsignedOfInt i))

/-- Appends a pair (`s << pair`): a list of two items, first then second. -/
def appendPair (s : RLPStream) (kv : u256 × u256) : RLPStream :=
  ((s.appendList 2).appendU256 kv.1).appendU256 kv.2

/-- The payload that a receiver constructs with `RLP(s.out())`: the first item
of the output, the null item when nothing was written. Lists still open are
no part of the output (the library asserts that there are none). -/
def out (s : RLPStream) : RLP := s.m_out.headD RLP.null

end RLPStream

/-! ## Messages and request kinds -/

/-- The C++ `NetMsgType`, a small unsigned integer. -/
abbrev NetMsgType := Nat

/-- Modelled from the spec: the class `NetMsg`, declared in a header that is
not among the sources. A Message has a "`serviceId`", a "`sequence`", a
"`type`" and a "`payload`"; the fields stand in the order in which line 205
passes them to the constructor, and `rlp` is named after the accessor
`rlp()`. -/
structure NetMsg where
  service : Nat
  sequence : Nat
  type : NetMsgType
  rlp : RLP

/-- The request kinds that label the cases of the dispatcher's `switch`. -/
inductive EthereumRPCRequest where
  | RequestSubmitTransaction
  | RequestCreateContract
  | RequestRLPInject
  | RequestFlushTransactions
  | RequestCallTransaction
  | RequestBalanceAt
  | RequestCountAt
  | RequestStateAt
  | RequestCodeAt
  | RequestStorageAt
  | RequestMessages
  deriving DecidableEq, Repr

open EthereumRPCRequest

/-- All the request kinds, in the order of the `switch`. -/
def EthereumRPCRequest.all : List EthereumRPCRequest :=
  [RequestSubmitTransaction, RequestCreateContract, RequestRLPInject, RequestFlushTransactions,
   RequestCallTransaction, RequestBalanceAt, RequestCountAt, RequestStateAt, RequestCodeAt,
   RequestStorageAt, RequestMessages]

/-- The ten request kinds of the interface table: those whose `case` has a
body of its own. -/
def EthereumRPCRequest.implemented : EthereumRPCRequest → Bool
  | RequestMessages => false
  | _ => true

/-- The numbering of the request kinds. The enumeration is declared in
`EthereumRPC.h`, which is not among the sources, so it is a parameter: any
assignment of pairwise distinct type codes (the labels of one `switch`). -/
structure RequestCodes where
  code : EthereumRPCRequest → NetMsgType
  inj : Function.Injective code

/-- The request kind that a type code names, if any. -/
def RequestCodes.kindOf (codes : RequestCodes) (t : NetMsgType) : Option EthereumRPCRequest :=
  EthereumRPCRequest.all.find? (fun k => codes.code k = t)

/-- Modelled from the spec: the response code `Success` of the missing
headers; "`1` = Success". -/
def Success : NetMsgType := 1

/-! ## The node interface -/

/-- The C++ `std::map<u256, u256>` of a storage query, as the list of its
entries in iteration order. -/
abbrev Storage := List (u256 × u256)

/-- The node operations that the dispatcher invokes through
`m_service->ethereum()`. Their implementation is outside this file, so they
are a parameter: each operation takes the node state, and either raises or
returns its result with the new node state. `transact` is the message-call
overload, `transactCreate` the contract-creating overload. -/
structure Interface (σ : Type) where
  transact : Secret → u256 → Address → bytes → u256 → u256 → σ → Except Exn (Unit × σ)
  transactCreate : Secret → u256 → bytes → u256 → u256 → σ → Except Exn (Address × σ)
  inject : bytes → σ → Except Exn (Unit × σ)
  flushTransactions : σ → Except Exn (Unit × σ)
  call : Secret → u256 → Address → bytes → u256 → u256 → σ → Except Exn (bytes × σ)
  balanceAt : Address → Int → σ → Except Exn (u256 × σ)
  countAt : Address → Int → σ → Except Exn (u256 × σ)
  stateAt : Address → u256 → Int → σ → Except Exn (u256 × σ)
  codeAt : Address → Int → σ → Except Exn (bytes × σ)
  storageAt : Address → Int → σ → Except Exn (Storage × σ)

/-- One invocation of a node operation, with its arguments. -/
inductive Call where
  | transact (s : Secret) (v : u256) (d : Address) (data : bytes) (g gp : u256)
  | transactCreate (s : Secret) (e : u256) (data : bytes) (g gp : u256)
  | inject (rlp : bytes)
  | flushTransactions
  | call (s : Secret) (v : u256) (d : Address) (data : bytes) (g gp : u256)
  | balanceAt (a : Address) (block : Int)
  | countAt (a : Address) (block : Int)
  | stateAt (a : Address) (l : u256) (block : Int)
  | codeAt (a : Address) (block : Int)
  | storageAt (a : Address) (block : Int)
  deriving DecidableEq

/-- The values that a recording node returns. -/
structure Returns where
  address : Address
  output : bytes
  balance : u256
  count : u256
  state : u256
  code : bytes
  storage : Storage

/-- A node whose state is the log of the invocations made on it, oldest
first, and whose operations return the values of `r`. -/
def recorder (r : Returns) : Interface (List Call) where
  transact s v d data g gp log := .ok ((), log ++ [Call.transact s v d data g gp])
  transactCreate s e data g gp log := .ok (r.address, log ++ [Call.transactCreate s e data g gp])
  inject rlp log := .ok ((), log ++ [Call.inject rlp])
  flushTransactions log := .ok ((), log ++ [Call.flushTransactions])
  call s v d data g gp log := .ok (r.output, log ++ [Call.call s v d data g gp])
  balanceAt a block log := .ok (r.balance, log ++ [Call.balanceAt a block])
  countAt a block log := .ok (r.count, log ++ [Call.countAt a block])
  stateAt a l block log := .ok (r.state, log ++ [Call.stateAt a l block])
  codeAt a block log := .ok (r.code, log ++ [Call.codeAt a block])
  storageAt a block log := .ok (r.storage, log ++ [Call.storageAt a block])

/-! ## The server-side dispatcher -/

/-- The C++ `EthereumRPCServer`: its service id and the node interface behind
`m_service`. -/
structure EthereumRPCServer (σ : Type) where
  serviceId : Nat
  ethereum : Interface σ

namespace EthereumRPCServer

variable {σ : Type}

/-- The `switch` of `EthereumRPCServer::receiveMessage` (lines 41-203): for
the request kind that the type code names, the typed reads of the fields of
`req`, the invocation of the node operation, and the result code and response
stream that the case leaves in `result` and `resp`. A read or an invocation
that raises ends the function: no statement of the source catches anything.
The arguments of one call are read from left to right. -/
def dispatch (self : EthereumRPCServer σ) (kind : Option EthereumRPCRequest) (req : RLP) (st : σ) :
    Except Exn ((NetMsgType × RLPStream) × σ) :=
  match kind with
  | some RequestSubmitTransaction => do
    let s ← (req.idx 0).toHash 32
    let v ← (req.idx 1).toInt256
    let d ← (req.idx 2).toHash 20
    let data ← (req.idx 3).toBytes
    let g ← (req.idx 4).toInt256
    let gp ← (req.idx 5).toInt256
    let r ← self.ethereum.transact s v d data g gp st
    pure ((1, RLPStream.empty), r.2)
  | some RequestCreateContract => do
    let s ← (req.idx 0).toHash 32
    let e ← (req.idx 1).toInt256
    let data ← (req.idx 2).toBytes
    let g ← (req.idx 3).toInt256
    let gp ← (req.idx 4).toInt256
    let r ← self.ethereum.transactCreate s e data g gp st
    pure ((1, (RLPStream.empty.appendList 1).appendHash r.1), r.2)
  | some RequestRLPInject => do
    let rlp ← (req.idx 0).toBytes
    let r ← self.ethereum.inject rlp st
    pure ((1, RLPStream.empty), r.2)
  | some RequestFlushTransactions => do
    let r ← self.ethereum.flushTransactions st
    pure ((1, RLPStream.empty), r.2)
  | some RequestCallTransaction => do
    let s ← (req.idx 0).toHash 32
    let v ← (req.idx 1).toInt256
    let d ← (req.idx 2).toHash 20
    let data ← (req.idx 3).toBytes
    let g ← (req.idx 4).toInt256
    let gp ← (req.idx 5).toInt256
    let r ← self.ethereum.call s v d data g gp st
    pure ((1, (RLPStream.empty.appendList 1).appendBytes r.1), r.2)
  | some RequestBalanceAt => do
    let a ← (req.idx 0).toHash 20
    let block ← (req.idx 1).toInt
    let r ← self.ethereum.balanceAt a (intOfUnsigned block) st
    pure ((1, (RLPStream.empty.appendList 1).appendU256 r.1), r.2)
  | some RequestCountAt => do
    let block ← (req.idx 1).toInt
    let a ← (req.idx 0).toHash 20
    let r ← self.ethereum.countAt a (intOfUnsigned block) st
    pure ((1, (RLPStream.empty.appendList 1).appendU256 r.1), r.2)
  | some RequestStateAt => do
    let a ← (req.idx 0).toHash 20
    let l ← (req.idx 1).toInt256
    let block ← (req.idx 2).toInt
    let r ← self.ethereum.stateAt a l (intOfUnsigned block) st
    pure ((1, (RLPStream.empty.appendList 1).appendU256 r.1), r.2)
  | some RequestCodeAt => do
    let a ← (req.idx 0).toHash 20
    let block ← (req.idx 1).toInt
    let r ← self.ethereum.codeAt a (intOfUnsigned block) st
    pure ((1, (RLPStream.empty.appendList 1).appendBytes r.1), r.2)
  | some RequestStorageAt => do
    let a ← (req.idx 0).toHash 20
    let block ← (req.idx 1).toInt
    let r ← self.ethereum.storageAt a (intOfUnsigned block) st
    let resp := (RLPStream.empty.appendList 1).appendList r.1.length
    pure ((1, r.1.foldl RLPStream.appendPair resp), r.2)
  | some RequestMessages => pure ((2, RLPStream.empty), st)
  | none => pure ((2, RLPStream.empty), st)

/-- The C++ `EthereumRPCServer::receiveMessage`: the `switch`, then the
response built from the service id, the sequence number of the request, the
result code and the response stream, and sent on the connection. The
result is the exception that left the function or the node state it left
behind, with the messages it sent on the connection. -/
def receiveMessage (codes : RequestCodes) (self : EthereumRPCServer σ) (msg : NetMsg) (st : σ) :
    Except Exn σ × List NetMsg :=
  match self.dispatch (codes.kindOf msg.type) msg.rlp st with
  | .error e => (.error e, [])
  | .ok ((result, resp), st1) => (.ok st1, [⟨self.serviceId, msg.sequence, result, resp.out⟩])

end EthereumRPCServer

/-! ## Ordered maps -/

/-- The C++ `std::map<κ, ν>`, as the list of its entries in ascending key
order. -/
abbrev StdMap (κ ν : Type) := List (κ × ν)

namespace StdMap

variable {κ ν : Type} [LinearOrder κ]

/-- The call `m.find(k)`: the value stored under `k`, if any. -/
def find (m : StdMap κ ν) (k : κ) : Option ν := (List.find? (fun e => e.1 = k) m).map Prod.snd

/-- The call `m.insert(make_pair(k, v))`: adds the entry at its place in the
key order; a map that already has the key stays as it is. -/
def insert : StdMap κ ν → κ → ν → StdMap κ ν
  | [], k, v => [(k, v)]
  | e :: rest, k, v =>
    if k < e.1 then (k, v) :: e :: rest
    else if k = e.1 then e :: rest
    else e :: insert rest k v

/-- The call `m.erase(k)`: removes the entry under `k`, if any. -/
def erase (m : StdMap κ ν) (k : κ) : StdMap κ ν := List.filter (fun e => e.1 ≠ k) m

/-- The call `m[k]`: the value under `k`; a map without the key first gets
an entry for `k` with the value-initialised `dflt`. -/
def index (m : StdMap κ ν) (k : κ) (dflt : ν) : ν × StdMap κ ν :=
  match find m k with
  | some v => (v, m)
  | none => (dflt, insert m k dflt)

/-- The keys of the map, ascending. -/
def keys (m : StdMap κ ν) : List κ := List.map Prod.fst m

end StdMap

/-! ## The client -/

/-- The C++ `EthereumRPCClient`, with the parts of its connection and base
class that its methods use.

* `m_promises` maps a sequence number to a pointer to a promise; `none` is
  the null pointer.
* `promises` are the promise objects alive (locals of running
  `performRequest` calls), by address, each with the response it was given, if
  any; `nextPromise` is the address of the next one.
* `dataSequence` is the counter behind `nextDataSequence()` of the base
  class, which is not among the sources; the spec has it allocate "the next
  sequence number (monotonic, never reused while pending)".
* `sent` are the messages passed to `connection()->send`, oldest first. -/
structure EthereumRPCClient where
  serviceId : Nat
  m_promises : StdMap Nat (Option Nat)
  promises : StdMap Nat (Option NetMsg)
  nextPromise : Nat
  dataSequence : Nat
  sent : List NetMsg

namespace EthereumRPCClient

/-- The call `p->set_value(msg)` on the promise at address `ptr`: stores the
message in a promise that holds none; raises `future_error` on a promise that
already holds one (or that is no longer alive). -/
def set_value (c : EthereumRPCClient) (ptr : Nat) (msg : NetMsg) : Except Exn Unit × EthereumRPCClient :=
  match StdMap.find c.promises ptr with
  | some none =>
    (.ok (), { c with promises := List.map (fun e => if e.1 = ptr then (e.1, some msg) else e) c.promises })
  | _ => (.error .future_error, c)

/-- The C++ `EthereumRPCClient::receiveMessage`: for a message of type
`Success`, `m_promises[sequence]` is read and, when the pointer is not null,
its promise is given the message; a message of type 2, or of any other type,
does nothing. -/
def receiveMessage (c : EthereumRPCClient) (msg : NetMsg) : Except Exn Unit × EthereumRPCClient :=
  if msg.type = Success then
    let r := StdMap.index c.m_promises msg.sequence none
    let c1 := { c with m_promises := r.2 }
    match r.1 with
    | some ptr => c1.set_value ptr msg
    | none => (.ok (), c1)
  else if msg.type = 2 then (.ok (), c)
  else (.ok (), c)

/-- The C++ `EthereumRPCClient::performRequest`. A promise is created, the
request is built with the next sequence number, the promise is registered
under that number and the request is sent. While the call waits, the handler
of the connection runs `receiveMessage` on each message that arrives before
the deadline (`arrivals`, which may depend on the request sent); an exception
of the handler stays in the handler. After the wait the entry is erased; the
call raises `RPCRequestTimeout` when the promise holds no value, and returns
the payload of the message it holds otherwise. -/
def performRequest (c : EthereumRPCClient) (type : NetMsgType) (s : RLPStream)
    (arrivals : NetMsg → List NetMsg) : Except Exn RLP × EthereumRPCClient :=
  let p := c.nextPromise
  let msg : NetMsg := ⟨c.serviceId, c.dataSequence, type, s.out⟩
  let c1 : EthereumRPCClient :=
    { c with
      promises := StdMap.insert c.promises p none
      nextPromise := p + 1
      dataSequence := c.dataSequence + 1
      m_promises := StdMap.insert c.m_promises msg.sequence (some p)
      sent := c.sent ++ [msg] }
  let c2 := List.foldl (fun c m => (c.receiveMessage m).2) c1 (arrivals msg)
  let value := (StdMap.find c2.promises p).join
  let c3 : EthereumRPCClient :=
    { c2 with
      m_promises := StdMap.erase c2.m_promises msg.sequence
      promises := StdMap.erase c2.promises p }
  match value with
  | none => (.error .RPCRequestTimeout, c3)
  | some m => (.ok m.rlp, c3)

/-! ### The typed methods

Each method builds its request stream, makes the request, and reads its
result from the payload returned; the stream and the read of each method are
named so that theorems can speak of them. -/

/-- The stream of the message-call `transact` and of `call`:
`RLPStream s(6); s << _secret << _value << _dest << _data << _gas << _gasPrice`. -/
def transactRequest (secret : Secret) (value : u256) (dest : Address) (data : bytes)
    (gas gasPrice : u256) : RLPStream :=
  ((((((RLPStream.ofList 6).appendHash secret).appendU256 value).appendHash dest).appendBytes
    data).appendU256 gas).appendU256 gasPrice

/-- The stream of the contract-creating `transact`:
`RLPStream s(5); s << _secret << _endowment << _init << _gas << _gasPrice`. -/
def transactCreateRequest (secret : Secret) (endowment : u256) (init : bytes) (gas gasPrice : u256) :
    RLPStream :=
  (((((RLPStream.ofList 5).appendHash secret).appendU256 endowment).appendBytes init).appendU256
    gas).appendU256 gasPrice

/-- The stream of `inject`: `RLPStream s(1); s.append(_rlp)`. -/
def injectRequest (rlp : bytes) : RLPStream := (RLPStream.ofList 1).appendBytes rlp

/-- The stream of `balanceAt`, `countAt`, `codeAt` and `storageAt`:
`RLPStream s(2); s << _a << _block`. -/
def blockQueryRequest (a : Address) (block : Int) : RLPStream :=
  ((RLPStream.ofList 2).appendHash a).appendInt block

/-- The stream of `stateAt`: `RLPStream s(3); s << _a << _l << _block`. -/
def stateAtRequest (a : Address) (l : u256) (block : Int) : RLPStream :=
  (((RLPStream.ofList 3).appendHash a).appendU256 l).appendInt block

/-- Modelled from the spec: the conversion `Address(bytes)` of libdevcore's
`FixedHash`, which is not among the sources (the spec has no word on byte
strings of another length): the octets when there are 20 of them, the zero
address otherwise. -/
def addressOfBytes (b : bytes) : Address :=
  if h : b.length = 20 then ⟨b, h⟩ else ⟨List.replicate 20 0, by simp⟩

/-- The read of the contract-creating `transact`: `Address(RLP(r).toBytes())`. -/
def transactCreateResult (r : RLP) : Except Exn Address := (RLP.toBytes r).map addressOfBytes

/-- The read of `call`: `RLP(r).toBytes()`. -/
def callResult (r : RLP) : Except Exn bytes := RLP.toBytes r

/-- The read of `balanceAt`: `RLP(r)[0].toInt<u256>()`. -/
def balanceAtResult (r : RLP) : Except Exn u256 := (RLP.idx r 0).toInt256

/-- The read of `countAt`: `r.toInt<u256>()`. -/
def countAtResult (r : RLP) : Except Exn u256 := RLP.toInt256 r

/-- The read of `stateAt`: `r.toInt<u256>()`. -/
def stateAtResult (r : RLP) : Except Exn u256 := RLP.toInt256 r

/-- The read of `codeAt`: `r.toBytes()`. -/
def codeAtResult (r : RLP) : Except Exn bytes := RLP.toBytes r

/-- The loop of `storageAt`: each item visited is read as a key and a value,
which are inserted in the map. -/
def readStorage : List RLP → StdMap u256 u256 → Except Exn (StdMap u256 u256)
  | [], store => .ok store
  | s :: rest, store => do
    let k ← (s.idx 0).toInt256
    let v ← (s.idx 1).toInt256
    readStorage rest (StdMap.insert store k v)

/-- The read of `storageAt`: the loop over the items of `RLP(r)`, from the
empty map. -/
def storageAtResult (r : RLP) : Except Exn (StdMap u256 u256) := readStorage r.items []

variable (codes : RequestCodes)

/-- The C++ `void EthereumRPCClient::transact(...)`, the message-call
overload; the payload returned is dropped. -/
def transact (c : EthereumRPCClient) (secret : Secret) (value : u256) (dest : Address) (data : bytes)
    (gas gasPrice : u256) (arrivals : NetMsg → List NetMsg) : Except Exn Unit × EthereumRPCClient :=
  let r := c.performRequest (codes.code RequestSubmitTransaction)
    (transactRequest secret value dest data gas gasPrice) arrivals
  (r.1.bind fun _ => .ok (), r.2)

/-- The C++ `Address EthereumRPCClient::transact(...)`, the contract-creating
overload. -/
def transactCreate (c : EthereumRPCClient) (secret : Secret) (endowment : u256) (init : bytes)
    (gas gasPrice : u256) (arrivals : NetMsg → List NetMsg) : Except Exn Address × EthereumRPCClient :=
  let r := c.performRequest (codes.code RequestCreateContract)
    (transactCreateRequest secret endowment init gas gasPrice) arrivals
  (r.1.bind transactCreateResult, r.2)

/-- The C++ `EthereumRPCClient::inject`; the payload returned is dropped. -/
def inject (c : EthereumRPCClient) (rlp : bytes) (arrivals : NetMsg → List NetMsg) :
    Except Exn Unit × EthereumRPCClient :=
  let r := c.performRequest (codes.code RequestRLPInject) (injectRequest rlp) arrivals
  (r.1.bind fun _ => .ok (), r.2)

/-- The C++ `EthereumRPCClient::flushTransactions`; the request is made with
no stream argument, which is taken to be the empty stream (FlushTransactions
has no parameters). -/
def flushTransactions (c : EthereumRPCClient) (arrivals : NetMsg → List NetMsg) :
    Except Exn Unit × EthereumRPCClient :=
  let r := c.performRequest (codes.code RequestFlushTransactions) RLPStream.empty arrivals
  (r.1.bind fun _ => .ok (), r.2)

/-- The C++ `EthereumRPCClient::call`. -/
def call (c : EthereumRPCClient) (secret : Secret) (value : u256) (dest : Address) (data : bytes)
    (gas gasPrice : u256) (arrivals : NetMsg → List NetMsg) : Except Exn bytes × EthereumRPCClient :=
  let r := c.performRequest (codes.code RequestCallTransaction)
    (transactRequest secret value dest data gas gasPrice) arrivals
  (r.1.bind callResult, r.2)

/-- The C++ `EthereumRPCClient::balanceAt`. -/
def balanceAt (c : EthereumRPCClient) (a : Address) (block : Int) (arrivals : NetMsg → List NetMsg) :
    Except Exn u256 × EthereumRPCClient :=
  let r := c.performRequest (codes.code RequestBalanceAt) (blockQueryRequest a block) arrivals
  (r.1.bind balanceAtResult, r.2)

/-- The C++ `EthereumRPCClient::countAt`. -/
def countAt (c : EthereumRPCClient) (a : Address) (block : Int) (arrivals : NetMsg → List NetMsg) :
    Except Exn u256 × EthereumRPCClient :=
  let r := c.performRequest (codes.code RequestCountAt) (blockQueryRequest a block) arrivals
  (r.1.bind countAtResult, r.2)

/-- The C++ `EthereumRPCClient::stateAt`. -/
def stateAt (c : EthereumRPCClient) (a : Address) (l : u256) (block : Int)
    (arrivals : NetMsg → List NetMsg) : Except Exn u256 × EthereumRPCClient :=
  let r := c.performRequest (codes.code RequestStateAt) (stateAtRequest a l block) arrivals
  (r.1.bind stateAtResult, r.2)

/-- The C++ `EthereumRPCClient::codeAt`. -/
def codeAt (c : EthereumRPCClient) (a : Address) (block : Int) (arrivals : NetMsg → List NetMsg) :
    Except Exn bytes × EthereumRPCClient :=
  let r := c.performRequest (codes.code RequestCodeAt) (blockQueryRequest a block) arrivals
  (r.1.bind codeAtResult, r.2)

/-- The C++ `EthereumRPCClient::storageAt`. -/
def storageAt (c : EthereumRPCClient) (a : Address) (block : Int) (arrivals : NetMsg → List NetMsg) :
    Except Exn (StdMap u256 u256) × EthereumRPCClient :=
  let r := c.performRequest (codes.code RequestStorageAt) (blockQueryRequest a block) arrivals
  (r.1.bind storageAtResult, r.2)

end EthereumRPCClient

/-! ## The interface table and concrete values -/

/-- The number of parameters that the interface table of the spec declares
for each request kind ("Params (ordered)"). -/
def EthereumRPCRequest.arity : EthereumRPCRequest → Nat
  | RequestSubmitTransaction => 6
  | RequestCreateContract => 5
  | RequestRLPInject => 1
  | RequestFlushTransactions => 0
  | RequestCallTransaction => 6
  | RequestBalanceAt => 2
  | RequestCountAt => 2
  | RequestStateAt => 3
  | RequestCodeAt => 2
  | RequestStorageAt => 2
  | RequestMessages => 0

/-- The position of a request kind in the `switch`. -/
def EthereumRPCRequest.ordinal : EthereumRPCRequest → Nat
  | RequestSubmitTransaction => 0
  | RequestCreateContract => 1
  | RequestRLPInject => 2
  | RequestFlushTransactions => 3
  | RequestCallTransaction => 4
  | RequestBalanceAt => 5
  | RequestCountAt => 6
  | RequestStateAt => 7
  | RequestCodeAt => 8
  | RequestStorageAt => 9
  | RequestMessages => 10

/-- One numbering of the request kinds, used for concrete runs: the kinds
take the codes 16 to 26. -/
def sampleCodes : RequestCodes where
  code k := 16 + k.ordinal
  inj := by
    intro a b h
    cases a <;> cases b <;> simp_all [EthereumRPCRequest.ordinal]

/-- The address `0xAAAA...AA`. -/
def addressAA : Address := ⟨List.replicate 20 0xAA, by simp⟩

/-- The address `0xBEEFBEEF...EF`. -/
def addressBEEF : Address := ⟨(List.replicate 10 [0xBE, 0xEF]).flatten, by simp⟩

/-- A secret key `K`. -/
def secretK : Secret := ⟨List.replicate 32 0x4B, by simp⟩

/-- The values of a recording node for the concrete runs: it creates the
contract `0xBEEF...`, reports the balance 500, and has an empty store. -/
def sampleReturns : Returns where
  address := addressBEEF
  output := [0x2A]
  balance := 500
  count := 5
  state := 7
  code := [0x60, 0x60]
  storage := []

/-- A server with service id 9 in front of the recording node. -/
def sampleServer : EthereumRPCServer (List Call) := ⟨9, recorder sampleReturns⟩

/-- A client with service id 9 that has made no request yet. -/
def sampleClient : EthereumRPCClient := ⟨9, [], [], 0, 0, []⟩

/-- A connection on which every request reaches `sampleServer`, whose node
has an empty log, and every response of the server arrives at the client
before the deadline. -/
def loopback (m : NetMsg) : List NetMsg := (sampleServer.receiveMessage sampleCodes m []).2

/-- A message whose type code, 99, names no request kind under `sampleCodes`. -/
def unknownTypeRequest : NetMsg := ⟨9, 7, 99, RLP.null⟩

/-! ## The phases of a request

The states that `performRequest` passes through, named so that theorems can
speak of the pending request and of its handle. -/

namespace EthereumRPCClient

/-- The request that `performRequest` builds (line 243): the service id of
the client, the next sequence number, the type code and the payload of the
stream. -/
def request (c : EthereumRPCClient) (type : NetMsgType) (s : RLPStream) : NetMsg :=
  ⟨c.serviceId, c.dataSequence, type, s.out⟩

/-- The client at the moment `performRequest` starts to wait (after line
248): the promise exists and holds no value, it has been inserted in the
table under the sequence number of the request, and the request has been
sent. -/
def registered (c : EthereumRPCClient) (type : NetMsgType) (s : RLPStream) : EthereumRPCClient :=
  { c with
    promises := StdMap.insert c.promises c.nextPromise none
    nextPromise := c.nextPromise + 1
    dataSequence := c.dataSequence + 1
    m_promises := StdMap.insert c.m_promises c.dataSequence (some c.nextPromise)
    sent := c.sent ++ [c.request type s] }

/-- The client at the moment the wait of `performRequest` ends (line 250):
the handler has run `receiveMessage` on every message that arrived. -/
def afterWait (c : EthereumRPCClient) (type : NetMsgType) (s : RLPStream)
    (arrivals : NetMsg → List NetMsg) : EthereumRPCClient :=
  List.foldl (fun c m => (c.receiveMessage m).2) (c.registered type s) (arrivals (c.request type s))

/-- The handle of a `performRequest` call when its wait ends: the response
that its promise was given, or `none` while it has not been fulfilled. -/
def handle (c : EthereumRPCClient) (type : NetMsgType) (s : RLPStream)
    (arrivals : NetMsg → List NetMsg) : Option NetMsg :=
  (StdMap.find (c.afterWait type s arrivals).promises c.nextPromise).join

/-- A client on which the next request does get registered: the table has no
entry under the next sequence number, so that `insert` adds one, and the
address of the next promise is that of no promise alive and is stored in no
entry of the table. -/
def canRegister (c : EthereumRPCClient) : Prop :=
  StdMap.find c.m_promises c.dataSequence = none ∧
  StdMap.find c.promises c.nextPromise = none ∧
  ∀ e ∈ c.m_promises, e.2 ≠ some c.nextPromise

/-- A request is pending under the sequence number `s` with the promise at
address `p`: the table holds the pointer `p` under `s`, and under no other
sequence number. -/
def pending (c : EthereumRPCClient) (s p : Nat) : Prop :=
  StdMap.find c.m_promises s = some (some p) ∧ ∀ e ∈ c.m_promises, e.2 = some p → e.1 = s

/-- The first of the messages `l` that fulfils the handle of the request
pending under `s`: the first of type `Success` with the sequence number
`s`. -/
def firstResponse (l : List NetMsg) (s : Nat) : Option NetMsg :=
  List.find? (fun m => decide (m.type = Success ∧ m.sequence = s)) l

end EthereumRPCClient

/-! ## The lock of the correlation table -/

/-- What a function body does to the mutex `x_promises` and to the table
`m_promises`, one event per statement that touches either: a `lock_guard` on
`x_promises` coming into scope, the guard going out of scope, and an access
to `m_promises`. -/
inductive LockEvent where
  | acquire
  | release
  | access
  deriving DecidableEq, Repr

/-- Whether every access of a run of events happens while the lock is held;
`held` tells whether it is held at the start. -/
def heldAtEveryAccess : Bool → List LockEvent → Bool
  | _, [] => true
  | _, LockEvent.acquire :: rest => heldAtEveryAccess true rest
  | _, LockEvent.release :: rest => heldAtEveryAccess false rest
  | held, LockEvent.access :: rest => held && heldAtEveryAccess held rest

/-- The events of `EthereumRPCClient::performRequest`, in program order: the
guarded block of lines 244-247 around `m_promises.insert`, and the guarded
block of lines 251-254 around `m_promises.erase`. -/
def EthereumRPCClient.performRequestLocking : List LockEvent :=
  [LockEvent.acquire, LockEvent.access, LockEvent.release,
   LockEvent.acquire, LockEvent.access, LockEvent.release]

/-- The events of `EthereumRPCClient::receiveMessage` (lines 217-236), in
program order: for a message of type `Success` the access
`m_promises[_msg.sequence()]` of line 228, with no `lock_guard` in the
function (nor in the handler of lines 211-214 that calls it); nothing for any
other message. -/
def EthereumRPCClient.receiveMessageLocking (msg : NetMsg) : List LockEvent :=
  if msg.type = Success then [LockEvent.access] else []

/-! ## More concrete values -/

/-- The item of one entry of a storage mapping: the list of its key and its
value. -/
def RLP.ofPair (kv : u256 × u256) : RLP := RLP.list [RLP.ofU256 kv.1, RLP.ofU256 kv.2]

/-- A BalanceAt request with three fields: the address `0xAA..`, the block
reference 10, and one byte string more than the kind declares. -/
def longBalanceRequest : NetMsg :=
  ⟨9, 7, sampleCodes.code RequestBalanceAt,
    RLP.list [RLP.ofHash addressAA, RLP.ofUnsigned 10, RLP.data [0x01]]⟩

/-- A connection on which every request is answered, before the deadline, by
one response of type 2 (Exception) with the sequence number of the request
and an empty payload. -/
def exceptionReply (m : NetMsg) : List NetMsg := [⟨9, m.sequence, 2, RLP.null⟩]

/-- A connection on which nothing arrives. -/
def silence (_ : NetMsg) : List NetMsg := []

/-- A connection on which four messages arrive before the deadline, in this
order: a Success response with another sequence number, a response of type 2
with the sequence number of the request, and two Success responses with the
sequence number of the request, the first with the payload `[0x01]` and the
second with the payload `[0x02]`. -/
def crowdedReply (m : NetMsg) : List NetMsg :=
  [⟨9, m.sequence + 1, Success, RLP.data [0x09]⟩,
   ⟨9, m.sequence, 2, RLP.null⟩,
   ⟨9, m.sequence, Success, RLP.data [0x01]⟩,
   ⟨9, m.sequence, Success, RLP.data [0x02]⟩]

/-- A client that has made no request yet but whose table already holds, under
the sequence number 5, the pointer of another pending call. -/
def busyClient : EthereumRPCClient := ⟨9, [(5, some 3)], [(3, none)], 4, 6, []⟩

/-- The client `sampleClient` while its first request, a BalanceAt request
with the sequence number 0, is pending with the promise at address 0. -/
def pendingClient : EthereumRPCClient :=
  sampleClient.registered (sampleCodes.code RequestBalanceAt)
    (EthereumRPCClient.blockQueryRequest addressAA 10)

/-- A Success response with the sequence number 0 and the payload `[0x01]`. -/
def firstSuccess : NetMsg := ⟨9, 0, Success, RLP.data [0x01]⟩

/-- Another Success response with the sequence number 0, with the payload
`[0x02]`. -/
def secondSuccess : NetMsg := ⟨9, 0, Success, RLP.data [0x02]⟩

/-! ## Theorems -/

/-! ### Type codes and typed reads -/

/-- The code of a request kind names that kind. -/
theorem RequestCodes.kindOf_code (codes : RequestCodes) (k : EthereumRPCRequest) :
    codes.kindOf (codes.code k) = some k := by
  cases k <;> simp [RequestCodes.kindOf, EthereumRPCRequest.all, List.find?, codes.inj.eq_iff]

/-- No hash can be read from the null item. -/
theorem RLP.toHash_null (N : Nat) : RLP.null.toHash N = .error .BadCast := rfl

/-- A list of one item, written to an empty stream, is the payload read
back. -/
theorem RLPStream.out_single (x : RLP) :
    ((RLPStream.empty.appendList 1).appendItem x).out = RLP.list [x] := rfl

/-! ### Round trips of the typed reads -/

/-- The big-endian value after one more octet. -/
theorem fromBigEndian_append (b : bytes) (x : Byte) :
    fromBigEndian (b ++ [x]) = fromBigEndian b * 256 + x.val := by
  simp [fromBigEndian, List.foldl_append]

/-- The compact big-endian octets of a number that fits `w` octets have that
number as their value. -/
theorem fromBigEndian_toCompactBigEndian (w n : Nat) (h : n < 256 ^ w) :
    fromBigEndian (toCompactBigEndian w n) = n := by
  induction w generalizing n with
  | zero =>
    have : n = 0 := by simpa using h
    subst this
    rfl
  | succ w ih =>
    unfold toCompactBigEndian
    by_cases hn : n = 0
    · subst hn; rfl
    · rw [if_neg hn, fromBigEndian_append, ih (n / 256) (by
        rw [Nat.div_lt_iff_lt_mul (by norm_num)]
        rw [pow_succ] at h
        exact h)]
      have : (Fin.ofNat (n % 256) : Fin 256).val = n % 256 := by
        simp [Fin.ofNat, Nat.mod_mod]
      rw [this]
      omega

/-- The compact big-endian octets are at most `w`. -/
theorem length_toCompactBigEndian (w n : Nat) : (toCompactBigEndian w n).length ≤ w := by
  induction w generalizing n with
  | zero => simp [toCompactBigEndian]
  | succ w ih =>
    unfold toCompactBigEndian
    by_cases hn : n = 0
    · simp [hn]
    · rw [if_neg hn]
      have := ih (n / 256)
      simp
      omega

/-- A hash is read back from its item. -/
theorem RLP.toHash_ofHash {N : Nat} (h : FixedHash N) : (RLP.ofHash h).toHash N = .ok h := by
  simp [RLP.ofHash, RLP.toHash, h.property]

/-- Every `u256`, zero and `2 ^ 256 - 1` included, is read back from its
item. -/
theorem RLP.toInt256_ofU256 (v : u256) : (RLP.ofU256 v).toInt256 = .ok v := by
  have hv : v.val < 256 ^ 32 := by
    have := v.isLt
    norm_num at this ⊢
    exact this
  simp only [RLP.ofU256, RLP.toInt256, length_toCompactBigEndian, if_true,
    fromBigEndian_toCompactBigEndian 32 v.val hv]
  congr 1
  apply Fin.ext
  simp [Fin.ofNat', Nat.mod_eq_of_lt v.isLt]

/-- An `unsigned` is read back from its item. -/
theorem RLP.toInt_ofUnsigned (n : Nat) : (RLP.ofUnsigned n).toInt = .ok (n % 4294967296) := by
  have hv : n % 4294967296 < 256 ^ 4 := by
    norm_num
    exact Nat.mod_lt _ (by norm_num)
  simp only [RLP.ofUnsigned, RLP.toInt, length_toCompactBigEndian, if_true,
    fromBigEndian_toCompactBigEndian 4 _ hv, Nat.mod_mod]

/-- A 32-bit `int` survives the conversion to `unsigned` and back. -/
theorem intOfUnsigned_unsignedOfInt (i : Int) (hlo : -2147483648 ≤ i) (hhi : i < 2147483648) :
    intOfUnsigned (unsignedOfInt i % 4294967296) = i := by
  unfold intOfUnsigned unsignedOfInt
  split <;> omega

/-! ### The streams of the client -/

/-- The payload of the message-call `transact` and of `call`: six fields. -/
theorem transactRequest_out (secret : Secret) (value : u256) (dest : Address) (data : bytes)
    (gas gasPrice : u256) :
    (EthereumRPCClient.transactRequest secret value dest data gas gasPrice).out =
      RLP.list [RLP.ofHash secret, RLP.ofU256 value, RLP.ofHash dest, RLP.data data,
        RLP.ofU256 gas, RLP.ofU256 gasPrice] := rfl

/-- The payload of the contract-creating `transact`: five fields. -/
theorem transactCreateRequest_out (secret : Secret) (endowment : u256) (init : bytes)
    (gas gasPrice : u256) :
    (EthereumRPCClient.transactCreateRequest secret endowment init gas gasPrice).out =
      RLP.list [RLP.ofHash secret, RLP.ofU256 endowment, RLP.data init,
        RLP.ofU256 gas, RLP.ofU256 gasPrice] := rfl

/-- The payload of `inject`: one field. -/
theorem injectRequest_out (rlp : bytes) :
    (EthereumRPCClient.injectRequest rlp).out = RLP.list [RLP.data rlp] := rfl

/-- The payload of `balanceAt`, `countAt`, `codeAt` and `storageAt`: two
fields. -/
theorem blockQueryRequest_out (a : Address) (block : Int) :
    (EthereumRPCClient.blockQueryRequest a block).out =
      RLP.list [RLP.ofHash a, RLP.ofUnsigned (unsignedOfInt block)] := rfl

/-- The payload of `stateAt`: three fields. -/
theorem stateAtRequest_out (a : Address) (l : u256) (block : Int) :
    (EthereumRPCClient.stateAtRequest a l block).out =
      RLP.list [RLP.ofHash a, RLP.ofU256 l, RLP.ofUnsigned (unsignedOfInt block)] := rfl

/-! ### What `performRequest` sends -/

/-- Giving a promise its value sends nothing. -/
theorem EthereumRPCClient.set_value_sent (c : EthereumRPCClient) (ptr : Nat) (msg : NetMsg) :
    (c.set_value ptr msg).2.sent = c.sent := by
  unfold EthereumRPCClient.set_value
  split <;> rfl

/-- The receive path of the client sends nothing. -/
theorem EthereumRPCClient.receiveMessage_sent (c : EthereumRPCClient) (msg : NetMsg) :
    (c.receiveMessage msg).2.sent = c.sent := by
  unfold EthereumRPCClient.receiveMessage
  split
  · dsimp only
    split
    · rw [EthereumRPCClient.set_value_sent]
    · rfl
  · split <;> rfl

/-- The handler sends nothing, however many messages arrive. -/
theorem EthereumRPCClient.foldl_receiveMessage_sent (l : List NetMsg) (c : EthereumRPCClient) :
    (List.foldl (fun c m => (c.receiveMessage m).2) c l).sent = c.sent := by
  induction l generalizing c with
  | nil => rfl
  | cons m l ih => rw [List.foldl_cons, ih, EthereumRPCClient.receiveMessage_sent]

/-- A call of `performRequest` sends one message: the request, with the
service id of the client, the next sequence number, the type code and the
payload of the stream. -/
theorem EthereumRPCClient.performRequest_sent (c : EthereumRPCClient) (type : NetMsgType)
    (s : RLPStream) (arrivals : NetMsg → List NetMsg) :
    (c.performRequest type s arrivals).2.sent =
      c.sent ++ [⟨c.serviceId, c.dataSequence, type, s.out⟩] := by
  unfold EthereumRPCClient.performRequest
  dsimp only
  split <;> simp [EthereumRPCClient.foldl_receiveMessage_sent]

/-! ### C1: a failure in the dispatcher -/

/-- C2. For every inbound message, whatever its type code, every response
that `receiveMessage` sends carries the sequence number of the request and
the service id of the server. At most one response is sent, and one is sent
whenever the `switch` completes. -/
theorem receiveMessage_response_envelope {σ : Type} (codes : RequestCodes)
    (self : EthereumRPCServer σ) (msg : NetMsg) (st : σ) :
    (∀ r ∈ (self.receiveMessage codes msg st).2,
      r.sequence = msg.sequence ∧ r.service = self.serviceId) ∧
    (self.receiveMessage codes msg st).2.length ≤ 1 ∧
    (∀ st1, (self.receiveMessage codes msg st).1 = .ok st1 →
      ∃ t p, (self.receiveMessage codes msg st).2 = [⟨self.serviceId, msg.sequence, t, p⟩]) := by
  unfold EthereumRPCServer.receiveMessage
  cases hd : self.dispatch (codes.kindOf msg.type) msg.rlp st with
  | error e => simp
  | ok v =>
    refine ⟨?_, by simp, ?_⟩
    · intro r hr
      simp at hr
      subst hr
      exact ⟨rfl, rfl⟩
    · intro st1 _
      exact ⟨v.1.1, v.1.2.out, rfl⟩

/-- C2, witness: the response to a message of type code 99 with sequence
number 7, sent by the server with service id 9. -/
theorem receiveMessage_response_envelope_witness :
    (⟨9, 7, 2, RLP.null⟩ : NetMsg) ∈
      (sampleServer.receiveMessage sampleCodes unknownTypeRequest []).2 ∧
    (⟨9, 7, 2, RLP.null⟩ : NetMsg).sequence = unknownTypeRequest.sequence ∧
    (⟨9, 7, 2, RLP.null⟩ : NetMsg).service = sampleServer.serviceId :=
  ⟨List.mem_singleton.mpr rfl,
    (receiveMessage_response_envelope sampleCodes sampleServer unknownTypeRequest []).1
      ⟨9, 7, 2, RLP.null⟩ (List.mem_singleton.mpr rfl)⟩

/-! ### C3: the response to a well-formed request -/

/-- C3. For a request of each of the ten kinds of the interface table whose
fields are read without failure, once the node operation has returned the
one response sent has type 1 (Success). Its payload is empty for
SubmitTransaction, RLPInject and FlushTransactions, and is the one-element
list of the value that the node returned for CreateContract,
CallTransaction, BalanceAt, CountAt, StateAt and CodeAt. (For StorageAt the
type is 1 as well; the claim says nothing of its payload.) -/
theorem receiveMessage_success_response {σ : Type} (codes : RequestCodes)
    (self : EthereumRPCServer σ) (msg : NetMsg) (st st1 : σ) :
    (∀ s v d data g gp, codes.kindOf msg.type = some RequestSubmitTransaction →
      (msg.rlp.idx 0).toHash 32 = .ok s → (msg.rlp.idx 1).toInt256 = .ok v →
      (msg.rlp.idx 2).toHash 20 = .ok d → (msg.rlp.idx 3).toBytes = .ok data →
      (msg.rlp.idx 4).toInt256 = .ok g → (msg.rlp.idx 5).toInt256 = .ok gp →
      self.ethereum.transact s v d data g gp st = .ok ((), st1) →
      self.receiveMessage codes msg st =
        (.ok st1, [⟨self.serviceId, msg.sequence, 1, RLP.null⟩])) ∧
    (∀ s e data g gp a, codes.kindOf msg.type = some RequestCreateContract →
      (msg.rlp.idx 0).toHash 32 = .ok s → (msg.rlp.idx 1).toInt256 = .ok e →
      (msg.rlp.idx 2).toBytes = .ok data →
      (msg.rlp.idx 3).toInt256 = .ok g → (msg.rlp.idx 4).toInt256 = .ok gp →
      self.ethereum.transactCreate s e data g gp st = .ok (a, st1) →
      self.receiveMessage codes msg st =
        (.ok st1, [⟨self.serviceId, msg.sequence, 1, RLP.list [RLP.ofHash a]⟩])) ∧
    (∀ rlp, codes.kindOf msg.type = some RequestRLPInject →
      (msg.rlp.idx 0).toBytes = .ok rlp →
      self.ethereum.inject rlp st = .ok ((), st1) →
      self.receiveMessage codes msg st =
        (.ok st1, [⟨self.serviceId, msg.sequence, 1, RLP.null⟩])) ∧
    (codes.kindOf msg.type = some RequestFlushTransactions →
      self.ethereum.flushTransactions st = .ok ((), st1) →
      self.receiveMessage codes msg st =
        (.ok st1, [⟨self.serviceId, msg.sequence, 1, RLP.null⟩])) ∧
    (∀ s v d data g gp b, codes.kindOf msg.type = some RequestCallTransaction →
      (msg.rlp.idx 0).toHash 32 = .ok s → (msg.rlp.idx 1).toInt256 = .ok v →
      (msg.rlp.idx 2).toHash 20 = .ok d → (msg.rlp.idx 3).toBytes = .ok data →
      (msg.rlp.idx 4).toInt256 = .ok g → (msg.rlp.idx 5).toInt256 = .ok gp →
      self.ethereum.call s v d data g gp st = .ok (b, st1) →
      self.receiveMessage codes msg st =
        (.ok st1, [⟨self.serviceId, msg.sequence, 1, RLP.list [RLP.data b]⟩])) ∧
    (∀ a block b, codes.kindOf msg.type = some RequestBalanceAt →
      (msg.rlp.idx 0).toHash 20 = .ok a → (msg.rlp.idx 1).toInt = .ok block →
      self.ethereum.balanceAt a (intOfUnsigned block) st = .ok (b, st1) →
      self.receiveMessage codes msg st =
        (.ok st1, [⟨self.serviceId, msg.sequence, 1, RLP.list [RLP.ofU256 b]⟩])) ∧
    (∀ a block b, codes.kindOf msg.type = some RequestCountAt →
      (msg.rlp.idx 0).toHash 20 = .ok a → (msg.rlp.idx 1).toInt = .ok block →
      self.ethereum.countAt a (intOfUnsigned block) st = .ok (b, st1) →
      self.receiveMessage codes msg st =
        (.ok st1, [⟨self.serviceId, msg.sequence, 1, RLP.list [RLP.ofU256 b]⟩])) ∧
    (∀ a l block b, codes.kindOf msg.type = some RequestStateAt →
      (msg.rlp.idx 0).toHash 20 = .ok a → (msg.rlp.idx 1).toInt256 = .ok l →
      (msg.rlp.idx 2).toInt = .ok block →
      self.ethereum.stateAt a l (intOfUnsigned block) st = .ok (b, st1) →
      self.receiveMessage codes msg st =
        (.ok st1, [⟨self.serviceId, msg.sequence, 1, RLP.list [RLP.ofU256 b]⟩])) ∧
    (∀ a block b, codes.kindOf msg.type = some RequestCodeAt →
      (msg.rlp.idx 0).toHash 20 = .ok a → (msg.rlp.idx 1).toInt = .ok block →
      self.ethereum.codeAt a (intOfUnsigned block) st = .ok (b, st1) →
      self.receiveMessage codes msg st =
        (.ok st1, [⟨self.serviceId, msg.sequence, 1, RLP.list [RLP.data b]⟩])) ∧
    (∀ a block store, codes.kindOf msg.type = some RequestStorageAt →
      (msg.rlp.idx 0).toHash 20 = .ok a → (msg.rlp.idx 1).toInt = .ok block →
      self.ethereum.storageAt a (intOfUnsigned block) st = .ok (store, st1) →
      ∃ p, self.receiveMessage codes msg st =
        (.ok st1, [⟨self.serviceId, msg.sequence, 1, p⟩])) := by
  refine ⟨?_, ?_, ?_, ?_, ?_, ?_, ?_, ?_, ?_, ?_⟩
  · intro s v d data g gp hk h0 h1 h2 h3 h4 h5 hc
    simp [EthereumRPCServer.receiveMessage, EthereumRPCServer.dispatch, hk, h0, h1, h2, h3, h4, h5,
      hc, bind, Except.bind, pure, Except.pure]
    rfl
  · intro s e data g gp a hk h0 h1 h2 h3 h4 hc
    simp [EthereumRPCServer.receiveMessage, EthereumRPCServer.dispatch, hk, h0, h1, h2, h3, h4,
      hc, bind, Except.bind, pure, Except.pure]
    rfl
  · intro rlp hk h0 hc
    simp [EthereumRPCServer.receiveMessage, EthereumRPCServer.dispatch, hk, h0,
      hc, bind, Except.bind, pure, Except.pure]
    rfl
  · intro hk hc
    simp [EthereumRPCServer.receiveMessage, EthereumRPCServer.dispatch, hk,
      hc, bind, Except.bind, pure, Except.pure]
    rfl
  · intro s v d data g gp b hk h0 h1 h2 h3 h4 h5 hc
    simp [EthereumRPCServer.receiveMessage, EthereumRPCServer.dispatch, hk, h0, h1, h2, h3, h4, h5,
      hc, bind, Except.bind, pure, Except.pure]
    rfl
  · intro a block b hk h0 h1 hc
    simp [EthereumRPCServer.receiveMessage, EthereumRPCServer.dispatch, hk, h0, h1,
      hc, bind, Except.bind, pure, Except.pure]
    rfl
  · intro a block b hk h0 h1 hc
    simp [EthereumRPCServer.receiveMessage, EthereumRPCServer.dispatch, hk, h0, h1,
      hc, bind, Except.bind, pure, Except.pure]
    rfl
  · intro a l block b hk h0 h1 h2 hc
    simp [EthereumRPCServer.receiveMessage, EthereumRPCServer.dispatch, hk, h0, h1, h2,
      hc, bind, Except.bind, pure, Except.pure]
    rfl
  · intro a block b hk h0 h1 hc
    simp [EthereumRPCServer.receiveMessage, EthereumRPCServer.dispatch, hk, h0, h1,
      hc, bind, Except.bind, pure, Except.pure]
    rfl
  · intro a block store hk h0 h1 hc
    simp [EthereumRPCServer.receiveMessage, EthereumRPCServer.dispatch, hk, h0, h1,
      hc, bind, Except.bind, pure, Except.pure]

/-- C3, witness: a BalanceAt request for the address `0xAA..` at block 10,
answered by a node that reports the balance 500. -/
theorem receiveMessage_success_response_witness :
    sampleCodes.kindOf (sampleCodes.code RequestBalanceAt) = some RequestBalanceAt ∧
    sampleServer.ethereum.balanceAt addressAA (intOfUnsigned 10) [] =
      .ok (500, [Call.balanceAt addressAA 10]) ∧
    sampleServer.receiveMessage sampleCodes
        ⟨9, 0, sampleCodes.code RequestBalanceAt,
          (EthereumRPCClient.blockQueryRequest addressAA 10).out⟩ [] =
      (.ok [Call.balanceAt addressAA 10], [⟨9, 0, 1, RLP.list [RLP.ofU256 500]⟩]) :=
  ⟨rfl, rfl,
    (receiveMessage_success_response sampleCodes sampleServer
      ⟨9, 0, sampleCodes.code RequestBalanceAt,
        (EthereumRPCClient.blockQueryRequest addressAA 10).out⟩ []
      [Call.balanceAt addressAA 10]).2.2.2.2.2.1 addressAA 10 500 rfl rfl rfl rfl⟩

/-! ### C4: a type code outside the ten kinds -/

/-- C4, counterexample. The claim gives the response to an unrecognised type
code a result code distinct from 1 and from 2. The type code 99 names no
request kind; the response to it has an empty payload and type 2. -/
theorem receiveMessage_unknown_type_is_exception_code :
    sampleCodes.kindOf unknownTypeRequest.type = none ∧
    sampleServer.receiveMessage sampleCodes unknownTypeRequest [] =
      (.ok [], [⟨9, 7, 2, RLP.null⟩]) ∧
    ¬ (∀ r ∈ (sampleServer.receiveMessage sampleCodes unknownTypeRequest []).2,
        r.rlp = RLP.null ∧ r.type ≠ 1 ∧ r.type ≠ 2) := by
  refine ⟨rfl, rfl, ?_⟩
  intro h
  exact (h ⟨9, 7, 2, RLP.null⟩ (List.mem_singleton.mpr rfl)).2.2 rfl

/-- C4, amended. For every inbound message whose type code is not one of
the ten request kinds of the interface table (a code that names no kind, or
the code of `RequestMessages`), the dispatcher invokes no node operation and
sends one response, with an empty payload and type 2: the code that also
stands for Exception, distinct from Success. -/
theorem receiveMessage_unknown_type {σ : Type} (codes : RequestCodes)
    (self : EthereumRPCServer σ) (msg : NetMsg) (st : σ)
    (h : ∀ k, codes.kindOf msg.type = some k → k.implemented = false) :
    self.receiveMessage codes msg st =
        (.ok st, [⟨self.serviceId, msg.sequence, 2, RLP.null⟩]) ∧
      (2 : NetMsgType) ≠ Success := by
  refine ⟨?_, by decide⟩
  cases hk : codes.kindOf msg.type with
  | none =>
    simp [EthereumRPCServer.receiveMessage, EthereumRPCServer.dispatch, hk, pure, Except.pure]
    rfl
  | some k =>
    have := h k hk
    cases k <;> simp [EthereumRPCRequest.implemented] at this
    simp [EthereumRPCServer.receiveMessage, EthereumRPCServer.dispatch, hk, pure, Except.pure]
    rfl

/-- C4, witness: the amended claim at the message of type code 99. -/
theorem receiveMessage_unknown_type_witness :
    (∀ k, sampleCodes.kindOf unknownTypeRequest.type = some k → k.implemented = false) ∧
    sampleServer.receiveMessage sampleCodes unknownTypeRequest [] =
      (.ok [], [⟨sampleServer.serviceId, unknownTypeRequest.sequence, 2, RLP.null⟩]) :=
  ⟨fun k hk => Option.noConfusion (show none = some k from hk),
    (receiveMessage_unknown_type sampleCodes sampleServer unknownTypeRequest []
      (fun k hk => Option.noConfusion (show none = some k from hk))).1⟩

/-! ### C5: what the client writes is what the dispatcher reads -/

/-- C5. For each request kind of the interface table and all parameter
values (byte strings of any length, every `u256`, every 32-bit `int` block
reference), the request that the client method sends, once dispatched by a
server in front of a recording node, makes exactly one invocation: that of
the corresponding node operation, with the arguments that were passed to the
client method. -/
theorem client_arguments_reach_capability (codes : RequestCodes) (sid : Nat) (r : Returns)
    (log : List Call) (c : EthereumRPCClient) (arrivals : NetMsg → List NetMsg) :
    (∀ secret value dest data gas gasPrice, ∃ m,
      (c.transact codes secret value dest data gas gasPrice arrivals).2.sent = c.sent ++ [m] ∧
      (EthereumRPCServer.receiveMessage codes ⟨sid, recorder r⟩ m log).1 =
        .ok (log ++ [Call.transact secret value dest data gas gasPrice])) ∧
    (∀ secret endowment init gas gasPrice, ∃ m,
      (c.transactCreate codes secret endowment init gas gasPrice arrivals).2.sent = c.sent ++ [m] ∧
      (EthereumRPCServer.receiveMessage codes ⟨sid, recorder r⟩ m log).1 =
        .ok (log ++ [Call.transactCreate secret endowment init gas gasPrice])) ∧
    (∀ rlp, ∃ m,
      (c.inject codes rlp arrivals).2.sent = c.sent ++ [m] ∧
      (EthereumRPCServer.receiveMessage codes ⟨sid, recorder r⟩ m log).1 =
        .ok (log ++ [Call.inject rlp])) ∧
    (∃ m,
      (c.flushTransactions codes arrivals).2.sent = c.sent ++ [m] ∧
      (EthereumRPCServer.receiveMessage codes ⟨sid, recorder r⟩ m log).1 =
        .ok (log ++ [Call.flushTransactions])) ∧
    (∀ secret value dest data gas gasPrice, ∃ m,
      (c.call codes secret value dest data gas gasPrice arrivals).2.sent = c.sent ++ [m] ∧
      (EthereumRPCServer.receiveMessage codes ⟨sid, recorder r⟩ m log).1 =
        .ok (log ++ [Call.call secret value dest data gas gasPrice])) ∧
    (∀ a block, -2147483648 ≤ block → block < 2147483648 → ∃ m,
      (c.balanceAt codes a block arrivals).2.sent = c.sent ++ [m] ∧
      (EthereumRPCServer.receiveMessage codes ⟨sid, recorder r⟩ m log).1 =
        .ok (log ++ [Call.balanceAt a block])) ∧
    (∀ a block, -2147483648 ≤ block → block < 2147483648 → ∃ m,
      (c.countAt codes a block arrivals).2.sent = c.sent ++ [m] ∧
      (EthereumRPCServer.receiveMessage codes ⟨sid, recorder r⟩ m log).1 =
        .ok (log ++ [Call.countAt a block])) ∧
    (∀ a l block, -2147483648 ≤ block → block < 2147483648 → ∃ m,
      (c.stateAt codes a l block arrivals).2.sent = c.sent ++ [m] ∧
      (EthereumRPCServer.receiveMessage codes ⟨sid, recorder r⟩ m log).1 =
        .ok (log ++ [Call.stateAt a l block])) ∧
    (∀ a block, -2147483648 ≤ block → block < 2147483648 → ∃ m,
      (c.codeAt codes a block arrivals).2.sent = c.sent ++ [m] ∧
      (EthereumRPCServer.receiveMessage codes ⟨sid, recorder r⟩ m log).1 =
        .ok (log ++ [Call.codeAt a block])) ∧
    (∀ a block, -2147483648 ≤ block → block < 2147483648 → ∃ m,
      (c.storageAt codes a block arrivals).2.sent = c.sent ++ [m] ∧
      (EthereumRPCServer.receiveMessage codes ⟨sid, recorder r⟩ m log).1 =
        .ok (log ++ [Call.storageAt a block])) := by
  refine ⟨?_, ?_, ?_, ?_, ?_, ?_, ?_, ?_, ?_, ?_⟩
  · intro secret value dest data gas gasPrice
    refine ⟨_, EthereumRPCClient.performRequest_sent _ _ _ _, ?_⟩
    simp [EthereumRPCServer.receiveMessage, EthereumRPCServer.dispatch, RequestCodes.kindOf_code,
      transactRequest_out, RLP.idx, RLP.toHash_ofHash, RLP.toInt256_ofU256, RLP.toBytes, recorder,
      bind, Except.bind, pure, Except.pure]
  · intro secret endowment init gas gasPrice
    refine ⟨_, EthereumRPCClient.performRequest_sent _ _ _ _, ?_⟩
    simp [EthereumRPCServer.receiveMessage, EthereumRPCServer.dispatch, RequestCodes.kindOf_code,
      transactCreateRequest_out, RLP.idx, RLP.toHash_ofHash, RLP.toInt256_ofU256, RLP.toBytes,
      recorder, bind, Except.bind, pure, Except.pure]
  · intro rlp
    refine ⟨_, EthereumRPCClient.performRequest_sent _ _ _ _, ?_⟩
    simp [EthereumRPCServer.receiveMessage, EthereumRPCServer.dispatch, RequestCodes.kindOf_code,
      injectRequest_out, RLP.idx, RLP.toBytes, recorder, bind, Except.bind, pure, Except.pure]
  · refine ⟨_, EthereumRPCClient.performRequest_sent _ _ _ _, ?_⟩
    simp [EthereumRPCServer.receiveMessage, EthereumRPCServer.dispatch, RequestCodes.kindOf_code,
      recorder, bind, Except.bind, pure, Except.pure]
  · intro secret value dest data gas gasPrice
    refine ⟨_, EthereumRPCClient.performRequest_sent _ _ _ _, ?_⟩
    simp [EthereumRPCServer.receiveMessage, EthereumRPCServer.dispatch, RequestCodes.kindOf_code,
      transactRequest_out, RLP.idx, RLP.toHash_ofHash, RLP.toInt256_ofU256, RLP.toBytes, recorder,
      bind, Except.bind, pure, Except.pure]
  · intro a block hlo hhi
    refine ⟨_, EthereumRPCClient.performRequest_sent _ _ _ _, ?_⟩
    simp [EthereumRPCServer.receiveMessage, EthereumRPCServer.dispatch, RequestCodes.kindOf_code,
      blockQueryRequest_out, RLP.idx, RLP.toHash_ofHash, RLP.toInt_ofUnsigned,
      intOfUnsigned_unsignedOfInt block hlo hhi, recorder, bind, Except.bind, pure, Except.pure]
  · intro a block hlo hhi
    refine ⟨_, EthereumRPCClient.performRequest_sent _ _ _ _, ?_⟩
    simp [EthereumRPCServer.receiveMessage, EthereumRPCServer.dispatch, RequestCodes.kindOf_code,
      blockQueryRequest_out, RLP.idx, RLP.toHash_ofHash, RLP.toInt_ofUnsigned,
      intOfUnsigned_unsignedOfInt block hlo hhi, recorder, bind, Except.bind, pure, Except.pure]
  · intro a l block hlo hhi
    refine ⟨_, EthereumRPCClient.performRequest_sent _ _ _ _, ?_⟩
    simp [EthereumRPCServer.receiveMessage, EthereumRPCServer.dispatch, RequestCodes.kindOf_code,
      stateAtRequest_out, RLP.idx, RLP.toHash_ofHash, RLP.toInt_ofUnsigned, RLP.toInt256_ofU256,
      intOfUnsigned_unsignedOfInt block hlo hhi, recorder, bind, Except.bind, pure, Except.pure]
  · intro a block hlo hhi
    refine ⟨_, EthereumRPCClient.performRequest_sent _ _ _ _, ?_⟩
    simp [EthereumRPCServer.receiveMessage, EthereumRPCServer.dispatch, RequestCodes.kindOf_code,
      blockQueryRequest_out, RLP.idx, RLP.toHash_ofHash, RLP.toInt_ofUnsigned,
      intOfUnsigned_unsignedOfInt block hlo hhi, recorder, bind, Except.bind, pure, Except.pure]
  · intro a block hlo hhi
    refine ⟨_, EthereumRPCClient.performRequest_sent _ _ _ _, ?_⟩
    simp [EthereumRPCServer.receiveMessage, EthereumRPCServer.dispatch, RequestCodes.kindOf_code,
      blockQueryRequest_out, RLP.idx, RLP.toHash_ofHash, RLP.toInt_ofUnsigned,
      intOfUnsigned_unsignedOfInt block hlo hhi, recorder, bind, Except.bind, pure, Except.pure]

/-- C5, witness: `balanceAt` of the address `0xAA..` at the block reference
-1, which travels as the unsigned `4294967295`. -/
theorem client_arguments_reach_capability_witness :
    (-2147483648 : Int) ≤ -1 ∧ (-1 : Int) < 2147483648 ∧
    ∃ m, (sampleClient.balanceAt sampleCodes addressAA (-1) loopback).2.sent =
        sampleClient.sent ++ [m] ∧
      (EthereumRPCServer.receiveMessage sampleCodes ⟨9, recorder sampleReturns⟩ m []).1 =
        .ok ([] ++ [Call.balanceAt addressAA (-1)]) :=
  ⟨by decide, by decide,
    (client_arguments_reach_capability sampleCodes 9 sampleReturns [] sampleClient
      loopback).2.2.2.2.2.1 addressAA (-1) (by decide) (by decide)⟩

/-! ### C6: BalanceAt, end to end -/

/-- C6. For every address, every 32-bit block reference and every balance
`b` that the node of the server returns for them:

* the server answers the request of `balanceAt` with a Success whose payload
  is the one-element list `[b]`;
* the read of `balanceAt` on that payload returns `b`;
* so `balanceAt` returns `b` whenever its request is answered by that
  payload. -/
theorem balanceAt_end_to_end {σ : Type} (codes : RequestCodes) (self : EthereumRPCServer σ)
    (st st1 : σ) (c : EthereumRPCClient) (seq : Nat) (a : Address) (block : Int) (b : u256)
    (hlo : -2147483648 ≤ block) (hhi : block < 2147483648)
    (hc : self.ethereum.balanceAt a block st = .ok (b, st1)) :
    self.receiveMessage codes
        ⟨c.serviceId, seq, codes.code RequestBalanceAt,
          (EthereumRPCClient.blockQueryRequest a block).out⟩ st =
      (.ok st1, [⟨self.serviceId, seq, Success, RLP.list [RLP.ofU256 b]⟩]) ∧
    EthereumRPCClient.balanceAtResult (RLP.list [RLP.ofU256 b]) = .ok b ∧
    ∀ arrivals,
      (c.performRequest (codes.code RequestBalanceAt)
        (EthereumRPCClient.blockQueryRequest a block) arrivals).1 = .ok (RLP.list [RLP.ofU256 b]) →
      (c.balanceAt codes a block arrivals).1 = .ok b := by
  have hdec : EthereumRPCClient.balanceAtResult (RLP.list [RLP.ofU256 b]) = .ok b := by
    simp [EthereumRPCClient.balanceAtResult, RLP.idx, RLP.toInt256_ofU256]
  refine ⟨?_, hdec, ?_⟩
  · simp [EthereumRPCServer.receiveMessage, EthereumRPCServer.dispatch, RequestCodes.kindOf_code,
      blockQueryRequest_out, RLP.idx, RLP.toHash_ofHash, RLP.toInt_ofUnsigned,
      intOfUnsigned_unsignedOfInt block hlo hhi, hc, bind, Except.bind, pure, Except.pure]
    exact ⟨rfl, rfl⟩
  · intro arrivals h
    simp [EthereumRPCClient.balanceAt, h, hdec, Except.bind]

/-- C6, witness: the scenario of the spec, run in full. A client that has
made no request calls `balanceAt(0xAA.., 10)` over the loopback connection;
the node reports 500; `performRequest` returns the payload `[500]` and the
call returns 500. -/
theorem balanceAt_end_to_end_witness :
    (-2147483648 : Int) ≤ 10 ∧ (10 : Int) < 2147483648 ∧
    sampleServer.ethereum.balanceAt addressAA 10 [] = .ok (500, [Call.balanceAt addressAA 10]) ∧
    (sampleClient.performRequest (sampleCodes.code RequestBalanceAt)
        (EthereumRPCClient.blockQueryRequest addressAA 10) loopback).1 =
      .ok (RLP.list [RLP.ofU256 500]) ∧
    (sampleClient.balanceAt sampleCodes addressAA 10 loopback).1 = .ok 500 :=
  ⟨by decide, by decide, rfl, rfl,
    (balanceAt_end_to_end sampleCodes sampleServer [] [Call.balanceAt addressAA 10] sampleClient 0
      addressAA 10 500 (by decide) (by decide) rfl).2.2 loopback rfl⟩

/-! ### C7, C8: the client methods that read the list itself -/

/-- C7, the code at the failing input. The client calls the contract-creating
`transact` with the secret key `K`, endowment 0, init code `[0x60, 0x60]`,
gas 21000 and gas price 1; the node creates the contract `0xBEEF..`. The
server answers Success with the one-element list `[0xBEEF..]`; the read of
the client takes the byte string of the list itself, not of its first
element, and the call does not return `0xBEEF..`. -/
theorem transactCreate_drops_contract_address :
    sampleServer.receiveMessage sampleCodes
        ⟨9, 0, sampleCodes.code RequestCreateContract,
          (EthereumRPCClient.transactCreateRequest secretK 0 [0x60, 0x60] 21000 1).out⟩ [] =
      (.ok [Call.transactCreate secretK 0 [0x60, 0x60] 21000 1],
        [⟨9, 0, Success, RLP.list [RLP.ofHash addressBEEF]⟩]) ∧
    EthereumRPCClient.transactCreateResult (RLP.list [RLP.ofHash addressBEEF]) ≠
      .ok addressBEEF ∧
    (sampleClient.transactCreate sampleCodes secretK 0 [0x60, 0x60] 21000 1 loopback).1 ≠
      .ok addressBEEF := by
  refine ⟨rfl, ?_, ?_⟩ <;> intro h <;> cases h

/-- C8, the code at the failing input. Over the loopback connection the node
returns the output `[0x2A]` to `call`, the count 5 to `countAt`, the value 7
to `stateAt` and the code `[0x60, 0x60]` to `codeAt`, and the server answers
each with a one-element list. Each client method reads the list itself, not
its first element, and none returns the value of the node. -/
theorem client_reads_list_not_first_element :
    (loopback ⟨9, 0, sampleCodes.code RequestCallTransaction,
        (EthereumRPCClient.transactRequest secretK 3 addressAA [0x01] 21000 1).out⟩ =
      [⟨9, 0, Success, RLP.list [RLP.data [0x2A]]⟩] ∧
     (sampleClient.call sampleCodes secretK 3 addressAA [0x01] 21000 1 loopback).1 ≠
      .ok [0x2A]) ∧
    (loopback ⟨9, 0, sampleCodes.code RequestCountAt,
        (EthereumRPCClient.blockQueryRequest addressAA 10).out⟩ =
      [⟨9, 0, Success, RLP.list [RLP.ofU256 5]⟩] ∧
     (sampleClient.countAt sampleCodes addressAA 10 loopback).1 ≠ .ok 5) ∧
    (loopback ⟨9, 0, sampleCodes.code RequestStateAt,
        (EthereumRPCClient.stateAtRequest addressAA 4 10).out⟩ =
      [⟨9, 0, Success, RLP.list [RLP.ofU256 7]⟩] ∧
     (sampleClient.stateAt sampleCodes addressAA 4 10 loopback).1 ≠ .ok 7) ∧
    (loopback ⟨9, 0, sampleCodes.code RequestCodeAt,
        (EthereumRPCClient.blockQueryRequest addressAA 10).out⟩ =
      [⟨9, 0, Success, RLP.list [RLP.data [0x60, 0x60]]⟩] ∧
     (sampleClient.codeAt sampleCodes addressAA 10 loopback).1 ≠ .ok [0x60, 0x60]) := by
  refine ⟨⟨rfl, ?_⟩, ⟨rfl, ?_⟩, ⟨rfl, ?_⟩, ⟨rfl, ?_⟩⟩ <;> intro h <;> cases h

/-! ### C9: StorageAt against an empty store -/

/-- C9, counterexample. The claim has the payload of the response be an
empty list, from which `storageAt` reads an empty mapping. For the address
`0xAA..` at block 10 the node returns the empty mapping; the payload of the
response is the one-element list `[[]]`, which is not the empty list, and
`storageAt` over the loopback connection does not return the empty mapping. -/
theorem storageAt_empty_store_payload_not_empty :
    sampleServer.receiveMessage sampleCodes
        ⟨9, 0, sampleCodes.code RequestStorageAt,
          (EthereumRPCClient.blockQueryRequest addressAA 10).out⟩ [] =
      (.ok [Call.storageAt addressAA 10], [⟨9, 0, Success, RLP.list [RLP.list []]⟩]) ∧
    RLP.list [RLP.list []] ≠ RLP.list [] ∧
    (sampleClient.storageAt sampleCodes addressAA 10 loopback).1 ≠ .ok [] := by
  refine ⟨rfl, ?_, ?_⟩ <;> intro h <;> cases h

/-- C9, amended. When the node returns the empty mapping to a StorageAt
request whose fields are read without failure, the response of the server is
a Success whose payload is the one-element list of the empty list. -/
theorem storageAt_empty_store_response {σ : Type} (codes : RequestCodes)
    (self : EthereumRPCServer σ) (msg : NetMsg) (st st1 : σ) (a : Address) (block : Nat)
    (hk : codes.kindOf msg.type = some RequestStorageAt)
    (h0 : (msg.rlp.idx 0).toHash 20 = .ok a) (h1 : (msg.rlp.idx 1).toInt = .ok block)
    (hc : self.ethereum.storageAt a (intOfUnsigned block) st = .ok ([], st1)) :
    self.receiveMessage codes msg st =
      (.ok st1, [⟨self.serviceId, msg.sequence, Success, RLP.list [RLP.list []]⟩]) := by
  simp [EthereumRPCServer.receiveMessage, EthereumRPCServer.dispatch, hk, h0, h1, hc, bind,
    Except.bind, pure, Except.pure]
  exact ⟨rfl, rfl⟩

/-- C9, witness: the request of `storageAt(0xAA.., 10)` at the server whose
node has an empty store. -/
theorem storageAt_empty_store_response_witness :
    sampleCodes.kindOf (sampleCodes.code RequestStorageAt) = some RequestStorageAt ∧
    sampleServer.ethereum.storageAt addressAA (intOfUnsigned 10) [] =
      .ok ([], [Call.storageAt addressAA 10]) ∧
    sampleServer.receiveMessage sampleCodes
        ⟨9, 0, sampleCodes.code RequestStorageAt,
          (EthereumRPCClient.blockQueryRequest addressAA 10).out⟩ [] =
      (.ok [Call.storageAt addressAA 10], [⟨9, 0, Success, RLP.list [RLP.list []]⟩]) :=
  ⟨rfl, rfl, storageAt_empty_store_response sampleCodes sampleServer
    ⟨9, 0, sampleCodes.code RequestStorageAt,
      (EthereumRPCClient.blockQueryRequest addressAA 10).out⟩ [] [Call.storageAt addressAA 10]
    addressAA 10 rfl rfl rfl rfl⟩

/-! ### C10: a response with an unknown sequence number -/

/-- C10, the code at the failing input. A client with an empty correlation
table receives a Success response with the sequence number 7. No error is
raised, but `m_promises[7]` has put an entry with a null pointer in the
table: its keys are no longer what they were. -/
theorem receiveMessage_stale_success_inserts_entry :
    StdMap.find sampleClient.m_promises 7 = none ∧
    (sampleClient.receiveMessage ⟨9, 7, Success, RLP.null⟩).1 = .ok () ∧
    (sampleClient.receiveMessage ⟨9, 7, Success, RLP.null⟩).2.m_promises = [(7, none)] ∧
    StdMap.keys (sampleClient.receiveMessage ⟨9, 7, Success, RLP.null⟩).2.m_promises ≠
      StdMap.keys sampleClient.m_promises := by
  refine ⟨rfl, rfl, rfl, ?_⟩
  intro h
  cases h

/-! ### Ordered maps -/

section StdMapLemmas

variable {κ ν : Type} [LinearOrder κ]

/-- The head of a map is found under its key. -/
theorem StdMap.find_cons_self (e : κ × ν) (m : StdMap κ ν) :
    StdMap.find (e :: m) e.1 = some e.2 := by
  simp [StdMap.find, List.find?]

/-- An entry with another key is skipped. -/
theorem StdMap.find_cons_ne (e : κ × ν) (m : StdMap κ ν) (k : κ) (h : e.1 ≠ k) :
    StdMap.find (e :: m) k = StdMap.find m k := by
  simp [StdMap.find, List.find?, h]

/-- After `insert`, a map without the key holds the value under it. -/
theorem StdMap.find_insert_self (m : StdMap κ ν) (k : κ) (v : ν)
    (h : StdMap.find m k = none) : StdMap.find (StdMap.insert m k v) k = some v := by
  induction m with
  | nil => simp [StdMap.insert, StdMap.find, List.find?]
  | cons e rest ih =>
    by_cases hek : e.1 = k
    · rw [← hek, StdMap.find_cons_self] at h
      cases h
    · rw [StdMap.find_cons_ne e rest k hek] at h
      unfold StdMap.insert
      by_cases hlt : k < e.1
      · rw [if_pos hlt]
        exact StdMap.find_cons_self (k, v) _
      · rw [if_neg hlt, if_neg (fun h => hek h.symm), StdMap.find_cons_ne e _ k hek]
        exact ih h

/-- The call `insert` leaves what is stored under every other key. -/
theorem StdMap.find_insert_ne (m : StdMap κ ν) (k k1 : κ) (v : ν) (h : k1 ≠ k) :
    StdMap.find (StdMap.insert m k1 v) k = StdMap.find m k := by
  induction m with
  | nil => simp [StdMap.insert, StdMap.find, List.find?, h]
  | cons e rest ih =>
    unfold StdMap.insert
    by_cases hlt : k1 < e.1
    · rw [if_pos hlt]
      exact StdMap.find_cons_ne (k1, v) _ k h
    · rw [if_neg hlt]
      by_cases heq : k1 = e.1
      · rw [if_pos heq]
      · rw [if_neg heq]
        by_cases hek : e.1 = k
        · rw [← hek, StdMap.find_cons_self, StdMap.find_cons_self]
        · rw [StdMap.find_cons_ne e _ k hek, StdMap.find_cons_ne e _ k hek]
          exact ih

/-- Every entry of a map after `insert` is the new entry or an entry it had. -/
theorem StdMap.mem_insert (m : StdMap κ ν) (k : κ) (v : ν) (e : κ × ν)
    (h : e ∈ StdMap.insert m k v) : e = (k, v) ∨ e ∈ m := by
  induction m with
  | nil =>
    simp [StdMap.insert] at h
    exact Or.inl h
  | cons e1 rest ih =>
    unfold StdMap.insert at h
    by_cases hlt : k < e1.1
    · rw [if_pos hlt] at h
      rcases List.mem_cons.mp h with h | h
      · exact Or.inl h
      · exact Or.inr h
    · rw [if_neg hlt] at h
      by_cases heq : k = e1.1
      · rw [if_pos heq] at h
        exact Or.inr h
      · rw [if_neg heq] at h
        rcases List.mem_cons.mp h with h | h
        · exact Or.inr (List.mem_cons.mpr (Or.inl h))
        · rcases ih h with h | h
          · exact Or.inl h
          · exact Or.inr (List.mem_cons.mpr (Or.inr h))

/-- What is found under a key is an entry of the map. -/
theorem StdMap.mem_of_find (m : StdMap κ ν) (k : κ) (v : ν) (h : StdMap.find m k = some v) :
    (k, v) ∈ m := by
  induction m with
  | nil => simp [StdMap.find] at h
  | cons e rest ih =>
    by_cases hek : e.1 = k
    · rw [← hek, StdMap.find_cons_self] at h
      cases h
      subst hek
      exact List.mem_cons.mpr (Or.inl rfl)
    · rw [StdMap.find_cons_ne e rest k hek] at h
      exact List.mem_cons.mpr (Or.inr (ih h))

/-- After `erase` nothing is stored under the key. -/
theorem StdMap.find_erase_self (m : StdMap κ ν) (k : κ) :
    StdMap.find (StdMap.erase m k) k = none := by
  induction m with
  | nil => rfl
  | cons e rest ih =>
    unfold StdMap.erase at ih ⊢
    by_cases hek : e.1 = k
    · simpa [List.filter, hek] using ih
    · rw [List.filter_cons_of_pos (by simpa using hek), StdMap.find_cons_ne e _ k hek]
      exact ih

/-- The call `erase` leaves what is stored under every other key. -/
theorem StdMap.find_erase_ne (m : StdMap κ ν) (k k1 : κ) (h : k1 ≠ k) :
    StdMap.find (StdMap.erase m k1) k = StdMap.find m k := by
  induction m with
  | nil => rfl
  | cons e rest ih =>
    unfold StdMap.erase at ih ⊢
    by_cases hek : e.1 = k1
    · rw [List.filter_cons_of_neg (by simpa using hek),
        StdMap.find_cons_ne e _ k (by rw [hek]; exact h)]
      exact ih
    · rw [List.filter_cons_of_pos (by simpa using hek)]
      by_cases hk : e.1 = k
      · rw [← hk, StdMap.find_cons_self, StdMap.find_cons_self]
      · rw [StdMap.find_cons_ne e _ k hk, StdMap.find_cons_ne e _ k hk]
        exact ih

end StdMapLemmas

/-! ### The receive path of the client -/

/-- The promise that `set_value` writes holds the message afterwards. -/
theorem StdMap.find_set_self (m : StdMap Nat (Option NetMsg)) (p : Nat) (msg : NetMsg)
    (x : Option NetMsg) (h : StdMap.find m p = some x) :
    StdMap.find (List.map (fun e => if e.1 = p then (e.1, some msg) else e) m) p =
      some (some msg) := by
  induction m with
  | nil => simp [StdMap.find] at h
  | cons e rest ih =>
    by_cases hek : e.1 = p
    · simp [StdMap.find, List.find?, hek]
    · rw [StdMap.find_cons_ne e rest p hek] at h
      rw [List.map_cons, if_neg hek, StdMap.find_cons_ne e _ p hek]
      exact ih h

/-- The promises that `set_value` does not write hold what they held. -/
theorem StdMap.find_set_ne (m : StdMap Nat (Option NetMsg)) (p q : Nat) (msg : NetMsg)
    (h : q ≠ p) :
    StdMap.find (List.map (fun e => if e.1 = q then (e.1, some msg) else e) m) p =
      StdMap.find m p := by
  induction m with
  | nil => rfl
  | cons e rest ih =>
    rw [List.map_cons]
    by_cases hek : e.1 = p
    · have hq : ¬ e.1 = q := fun hq => h (hq.symm.trans hek)
      rw [if_neg hq, ← hek, StdMap.find_cons_self, StdMap.find_cons_self]
    · by_cases hq : e.1 = q
      · rw [if_pos hq, StdMap.find_cons_ne _ _ p (by simpa using hek),
          StdMap.find_cons_ne e _ p hek]
        exact ih
      · rw [if_neg hq, StdMap.find_cons_ne e _ p hek, StdMap.find_cons_ne e _ p hek]
        exact ih

/-- The call `set_value` leaves the table as it is. -/
theorem EthereumRPCClient.set_value_m_promises (c : EthereumRPCClient) (ptr : Nat) (msg : NetMsg) :
    (c.set_value ptr msg).2.m_promises = c.m_promises := by
  unfold EthereumRPCClient.set_value
  split <;> rfl

/-- The call `set_value` on one promise leaves every other promise as it
is. -/
theorem EthereumRPCClient.set_value_other (c : EthereumRPCClient) (p q : Nat) (msg : NetMsg)
    (h : q ≠ p) :
    StdMap.find (c.set_value q msg).2.promises p = StdMap.find c.promises p := by
  unfold EthereumRPCClient.set_value
  split
  · exact StdMap.find_set_ne c.promises p q msg h
  · rfl

/-- A message of another type than `Success` changes nothing in the client
and raises nothing. -/
theorem EthereumRPCClient.receiveMessage_not_success (c : EthereumRPCClient) (msg : NetMsg)
    (h : msg.type ≠ Success) : c.receiveMessage msg = (.ok (), c) := by
  unfold EthereumRPCClient.receiveMessage
  rw [if_neg h]
  split <;> rfl

/-- The first Success response with the sequence number of a pending request
fulfils its handle, raises nothing and leaves the table as it is. -/
theorem EthereumRPCClient.receiveMessage_fulfils (c : EthereumRPCClient) (s p : Nat)
    (msg : NetMsg) (hp : c.pending s p) (hv : StdMap.find c.promises p = some none)
    (ht : msg.type = Success) (hs : msg.sequence = s) :
    (c.receiveMessage msg).1 = .ok () ∧
    (c.receiveMessage msg).2.m_promises = c.m_promises ∧
    StdMap.find (c.receiveMessage msg).2.promises p = some (some msg) := by
  have hf : StdMap.find c.m_promises msg.sequence = some (some p) := by rw [hs]; exact hp.1
  simp only [EthereumRPCClient.receiveMessage, ht, if_true, StdMap.index, hf,
    EthereumRPCClient.set_value, hv]
  exact ⟨by trivial, by trivial, StdMap.find_set_self c.promises p msg none hv⟩

/-- A further Success response with the sequence number of a pending request
whose handle is fulfilled changes nothing in the client; `set_value` raises
`future_error`. -/
theorem EthereumRPCClient.receiveMessage_again (c : EthereumRPCClient) (s p : Nat)
    (msg m0 : NetMsg) (hp : c.pending s p) (hv : StdMap.find c.promises p = some (some m0))
    (ht : msg.type = Success) (hs : msg.sequence = s) :
    c.receiveMessage msg = (.error .future_error, c) := by
  have hf : StdMap.find c.m_promises msg.sequence = some (some p) := by rw [hs]; exact hp.1
  simp only [EthereumRPCClient.receiveMessage, ht, if_true, StdMap.index, hf,
    EthereumRPCClient.set_value, hv]

/-- A Success response with another sequence number leaves a pending request
pending and its handle as it is. -/
theorem EthereumRPCClient.receiveMessage_other (c : EthereumRPCClient) (s p : Nat)
    (msg : NetMsg) (hp : c.pending s p) (ht : msg.type = Success) (hs : msg.sequence ≠ s) :
    (c.receiveMessage msg).2.pending s p ∧
    StdMap.find (c.receiveMessage msg).2.promises p = StdMap.find c.promises p := by
  cases hf : StdMap.find c.m_promises msg.sequence with
  | none =>
    simp only [EthereumRPCClient.receiveMessage, ht, if_true, StdMap.index, hf]
    refine ⟨⟨?_, ?_⟩, by trivial⟩
    · show StdMap.find (StdMap.insert c.m_promises msg.sequence none) s = some (some p)
      rw [StdMap.find_insert_ne c.m_promises s msg.sequence none hs]
      exact hp.1
    · intro e he hep
      rcases StdMap.mem_insert c.m_promises msg.sequence none e he with h | h
      · rw [h] at hep
        cases hep
      · exact hp.2 e h hep
  | some v =>
    cases v with
    | none =>
      simp only [EthereumRPCClient.receiveMessage, ht, if_true, StdMap.index, hf]
      exact ⟨hp, by trivial⟩
    | some q =>
      have hq : q ≠ p := by
        intro hqp
        subst hqp
        exact hs (hp.2 (msg.sequence, some q)
          (StdMap.mem_of_find c.m_promises msg.sequence (some q) hf) rfl)
      simp only [EthereumRPCClient.receiveMessage, ht, if_true, StdMap.index, hf]
      refine ⟨?_, ?_⟩
      · unfold EthereumRPCClient.pending
        rw [EthereumRPCClient.set_value_m_promises]
        exact hp
      · rw [EthereumRPCClient.set_value_other _ p q msg hq]

/-! ### The wait of `performRequest` -/

/-- While the handler runs, a pending request stays pending, and its handle
holds the first Success response with its sequence number, from the moment
that response arrives. -/
theorem EthereumRPCClient.foldl_receiveMessage_handle (l : List NetMsg) (c : EthereumRPCClient)
    (s p : Nat) (v : Option NetMsg) (hp : c.pending s p)
    (hv : StdMap.find c.promises p = some v) :
    (List.foldl (fun c m => (c.receiveMessage m).2) c l).pending s p ∧
    StdMap.find (List.foldl (fun c m => (c.receiveMessage m).2) c l).promises p =
      some (match v with
        | some m => some m
        | none => EthereumRPCClient.firstResponse l s) := by
  induction l generalizing c v with
  | nil =>
    refine ⟨hp, ?_⟩
    cases v <;> exact hv
  | cons m l ih =>
    rw [List.foldl_cons]
    by_cases ht : m.type = Success
    · by_cases hs : m.sequence = s
      · cases v with
        | none =>
          have hf := c.receiveMessage_fulfils s p m hp hv ht hs
          have hp2 : (c.receiveMessage m).2.pending s p := by
            unfold EthereumRPCClient.pending
            rw [hf.2.1]
            exact hp
          have h := ih (c.receiveMessage m).2 (some m) hp2 hf.2.2
          refine ⟨h.1, ?_⟩
          rw [h.2]
          simp [EthereumRPCClient.firstResponse, List.find?, ht, hs]
        | some m0 =>
          rw [c.receiveMessage_again s p m m0 hp hv ht hs]
          exact ih c (some m0) hp hv
      · have ho := c.receiveMessage_other s p m hp ht hs
        have h := ih (c.receiveMessage m).2 v ho.1 (ho.2.trans hv)
        refine ⟨h.1, ?_⟩
        rw [h.2]
        cases v with
        | some m0 => rfl
        | none => simp [EthereumRPCClient.firstResponse, List.find?, hs]
    · rw [c.receiveMessage_not_success m ht]
      have h := ih c v hp hv
      refine ⟨h.1, ?_⟩
      rw [h.2]
      cases v with
      | some m0 => rfl
      | none => simp [EthereumRPCClient.firstResponse, List.find?, ht]

/-- On a client that can register it, the request is pending when the wait
starts, and its handle is unset. -/
theorem EthereumRPCClient.registered_pending (c : EthereumRPCClient) (type : NetMsgType)
    (s : RLPStream) (h : c.canRegister) :
    (c.registered type s).pending c.dataSequence c.nextPromise ∧
    StdMap.find (c.registered type s).promises c.nextPromise = some none := by
  refine ⟨⟨?_, ?_⟩, ?_⟩
  · exact StdMap.find_insert_self c.m_promises c.dataSequence (some c.nextPromise) h.1
  · intro e he hep
    rcases StdMap.mem_insert c.m_promises c.dataSequence (some c.nextPromise) e he with h1 | h1
    · rw [h1]
    · exact absurd hep (h.2.2 e h1)
  · exact StdMap.find_insert_self c.promises c.nextPromise none h.2.1

/-- On a client that can register the request, the handle holds, when the
wait ends, the first Success response with the sequence number of the
request among the messages that arrived. -/
theorem EthereumRPCClient.handle_eq_firstResponse (c : EthereumRPCClient) (type : NetMsgType)
    (s : RLPStream) (arrivals : NetMsg → List NetMsg) (h : c.canRegister) :
    c.handle type s arrivals =
      EthereumRPCClient.firstResponse (arrivals (c.request type s)) c.dataSequence := by
  have hr := c.registered_pending type s h
  have hf := EthereumRPCClient.foldl_receiveMessage_handle (arrivals (c.request type s))
    (c.registered type s) c.dataSequence c.nextPromise none hr.1 hr.2
  unfold EthereumRPCClient.handle EthereumRPCClient.afterWait
  rw [hf.2]
  rfl

/-- The outcome of `performRequest`, from the handle at the end of the
wait: the timeout error when it is unset, the payload of the response it
holds otherwise. -/
theorem EthereumRPCClient.performRequest_outcome (c : EthereumRPCClient) (type : NetMsgType)
    (s : RLPStream) (arrivals : NetMsg → List NetMsg) :
    (c.performRequest type s arrivals).1 =
      match c.handle type s arrivals with
      | none => .error .RPCRequestTimeout
      | some m => .ok m.rlp := by
  unfold EthereumRPCClient.performRequest
  show (match c.handle type s arrivals with
    | none => _
    | some m => _ : Except Exn RLP × EthereumRPCClient).1 = _
  cases c.handle type s arrivals <;> rfl

/-- The table that `performRequest` leaves: the table at the end of the
wait, without the entry under the sequence number of the request. -/
theorem EthereumRPCClient.performRequest_m_promises (c : EthereumRPCClient) (type : NetMsgType)
    (s : RLPStream) (arrivals : NetMsg → List NetMsg) :
    (c.performRequest type s arrivals).2.m_promises =
      StdMap.erase (c.afterWait type s arrivals).m_promises c.dataSequence := by
  unfold EthereumRPCClient.performRequest
  show (match c.handle type s arrivals with
    | none => _
    | some m => _ : Except Exn RLP × EthereumRPCClient).2.m_promises = _
  cases c.handle type s arrivals <;> rfl

/-! ### C11: a response of type 2 -/

/-- C11, counterexample. The claim has a response of type 2 with the
sequence number of a pending request fulfil its handle, so that the call
fails with a remote-exception error and not with the timeout. The client
makes its first request, with the sequence number 0; the one message that
arrives is the response of type 2 with the sequence number 0. The handle is
unset when the wait ends and the call raises `RPCRequestTimeout`. -/
theorem performRequest_exception_response_times_out :
    exceptionReply (sampleClient.request (sampleCodes.code RequestBalanceAt)
        (EthereumRPCClient.blockQueryRequest addressAA 10)) = [⟨9, 0, 2, RLP.null⟩] ∧
    sampleClient.handle (sampleCodes.code RequestBalanceAt)
        (EthereumRPCClient.blockQueryRequest addressAA 10) exceptionReply = none ∧
    (sampleClient.performRequest (sampleCodes.code RequestBalanceAt)
        (EthereumRPCClient.blockQueryRequest addressAA 10) exceptionReply).1 =
      .error .RPCRequestTimeout :=
  ⟨rfl, rfl, rfl⟩

/-- C11, amended. A response of type 2 is ignored by the receive path,
whatever its sequence number: it changes nothing in the client and raises
nothing. So it does not fulfil the handle of the request it answers, and a
`performRequest` call that receives only responses of type 2 during its wait
ends with an unset handle and raises `RPCRequestTimeout`. -/
theorem receiveMessage_exception_ignored (c : EthereumRPCClient) (type : NetMsgType)
    (s : RLPStream) (arrivals : NetMsg → List NetMsg) (h : c.canRegister)
    (hall : ∀ m ∈ arrivals (c.request type s), m.type = 2) :
    (∀ c1 : EthereumRPCClient, ∀ m, m.type = 2 → c1.receiveMessage m = (.ok (), c1)) ∧
    c.handle type s arrivals = none ∧
    (c.performRequest type s arrivals).1 = .error .RPCRequestTimeout := by
  have hnone : c.handle type s arrivals = none := by
    rw [c.handle_eq_firstResponse type s arrivals h]
    unfold EthereumRPCClient.firstResponse
    rw [List.find?_eq_none]
    intro m hm
    have := hall m hm
    simp [this, Success]
  refine ⟨?_, hnone, ?_⟩
  · intro c1 m hm
    exact c1.receiveMessage_not_success m (by rw [hm]; decide)
  · rw [c.performRequest_outcome type s arrivals, hnone]

/-- C11, witness: the first request of `sampleClient`, answered by a
response of type 2 with its sequence number. -/
theorem receiveMessage_exception_ignored_witness :
    sampleClient.canRegister ∧
    (∀ m ∈ exceptionReply (sampleClient.request (sampleCodes.code RequestBalanceAt)
        (EthereumRPCClient.blockQueryRequest addressAA 10)), m.type = 2) ∧
    (sampleClient.performRequest (sampleCodes.code RequestBalanceAt)
        (EthereumRPCClient.blockQueryRequest addressAA 10) exceptionReply).1 =
      .error .RPCRequestTimeout :=
  ⟨⟨rfl, rfl, fun _ he => nomatch he⟩,
    fun _ hm => by rw [List.mem_singleton.mp hm],
    (receiveMessage_exception_ignored sampleClient (sampleCodes.code RequestBalanceAt)
      (EthereumRPCClient.blockQueryRequest addressAA 10) exceptionReply
      ⟨rfl, rfl, fun _ he => nomatch he⟩
      (fun _ hm => by rw [List.mem_singleton.mp hm])).2.2⟩

/-! ### C12: fulfilment and the entry of the table -/

/-- C12, counterexample. The claim has the receive path remove the entry of
the sequence number it fulfils, so that a further response with that number
is a no-op that raises nothing. The request with the sequence number 0 is
pending; a Success response with that number arrives and fulfils the handle,
but the table still holds the entry under 0 afterwards; a second Success
response with the number 0 finds it, and `set_value` raises `future_error`
in the receive path. -/
theorem receiveMessage_keeps_entry_and_raises :
    StdMap.find pendingClient.m_promises 0 = some (some 0) ∧
    (pendingClient.receiveMessage firstSuccess).1 = .ok () ∧
    StdMap.find (pendingClient.receiveMessage firstSuccess).2.m_promises 0 = some (some 0) ∧
    ((pendingClient.receiveMessage firstSuccess).2.receiveMessage secondSuccess).1 =
      .error .future_error :=
  ⟨rfl, rfl, rfl, rfl⟩

/-- C12, amended. When a Success response for a pending sequence number `s`
is received, the receive path fulfils the handle registered under `s` and
leaves the table as it is, the entry under `s` included (it is
`performRequest` that erases it, after its wait). A further Success response
with the number `s`, received before the caller has returned, finds the
entry and leaves the handle and the table as they are: the handle is never
given a second value. -/
theorem receiveMessage_fulfils_once (c : EthereumRPCClient) (s p : Nat) (msg : NetMsg)
    (hp : c.pending s p) (hv : StdMap.find c.promises p = some none)
    (ht : msg.type = Success) (hs : msg.sequence = s) :
    (c.receiveMessage msg).1 = .ok () ∧
    StdMap.find (c.receiveMessage msg).2.promises p = some (some msg) ∧
    (c.receiveMessage msg).2.m_promises = c.m_promises ∧
    StdMap.find (c.receiveMessage msg).2.m_promises s = some (some p) ∧
    ∀ again : NetMsg, again.type = Success → again.sequence = s →
      ((c.receiveMessage msg).2.receiveMessage again).2 = (c.receiveMessage msg).2 := by
  have hf := c.receiveMessage_fulfils s p msg hp hv ht hs
  have hp2 : (c.receiveMessage msg).2.pending s p := by
    unfold EthereumRPCClient.pending
    rw [hf.2.1]
    exact hp
  refine ⟨hf.1, hf.2.2, hf.2.1, hp2.1, ?_⟩
  intro again hta hsa
  rw [(c.receiveMessage msg).2.receiveMessage_again s p again msg hp2 hf.2.2 hta hsa]

/-- C12, witness: the two Success responses with the sequence number 0 at
the client whose first request is pending. -/
theorem receiveMessage_fulfils_once_witness :
    pendingClient.pending 0 0 ∧
    StdMap.find pendingClient.promises 0 = some none ∧
    StdMap.find (pendingClient.receiveMessage firstSuccess).2.promises 0 =
      some (some firstSuccess) ∧
    ((pendingClient.receiveMessage firstSuccess).2.receiveMessage secondSuccess).2 =
      (pendingClient.receiveMessage firstSuccess).2 :=
  ⟨(sampleClient.registered_pending _ _ ⟨rfl, rfl, fun _ he => nomatch he⟩).1, rfl,
    (receiveMessage_fulfils_once pendingClient 0 0 firstSuccess
      (sampleClient.registered_pending _ _ ⟨rfl, rfl, fun _ he => nomatch he⟩).1
      rfl rfl rfl).2.1,
    (receiveMessage_fulfils_once pendingClient 0 0 firstSuccess
      (sampleClient.registered_pending _ _ ⟨rfl, rfl, fun _ he => nomatch he⟩).1
      rfl rfl rfl).2.2.2.2 secondSuccess rfl rfl⟩

/-! ### C13: correlation by sequence number -/

/-- The first response to a request among messages of which none before it
is a Success response with the sequence number of the request. -/
theorem EthereumRPCClient.firstResponse_append (pre post : List NetMsg) (resp : NetMsg) (s : Nat)
    (ht : resp.type = Success) (hs : resp.sequence = s)
    (hpre : ∀ m ∈ pre, ¬ (m.type = Success ∧ m.sequence = s)) :
    EthereumRPCClient.firstResponse (pre ++ resp :: post) s = some resp := by
  unfold EthereumRPCClient.firstResponse
  induction pre with
  | nil => simp [List.find?, ht, hs]
  | cons m pre ih =>
    have hm := hpre m (List.mem_cons.mpr (Or.inl rfl))
    rw [List.cons_append, List.find?_cons_of_neg _ (by simpa using hm)]
    exact ih (fun x hx => hpre x (List.mem_cons.mpr (Or.inr hx)))

/-- C13. For a request that `performRequest` has registered under the
sequence number `s`:

* a Success response with the number `s` that arrives before the deadline,
  the first such response, makes `performRequest` return exactly the payload
  of that response;
* a Success response with another sequence number, received while the
  request is pending, leaves the handle of the request unset. -/
theorem performRequest_correlates_by_sequence (c : EthereumRPCClient) (type : NetMsgType)
    (s : RLPStream) (arrivals : NetMsg → List NetMsg) (h : c.canRegister) :
    (∀ pre resp post, arrivals (c.request type s) = pre ++ resp :: post →
      resp.type = Success → resp.sequence = c.dataSequence →
      (∀ m ∈ pre, ¬ (m.type = Success ∧ m.sequence = c.dataSequence)) →
      (c.performRequest type s arrivals).1 = .ok resp.rlp) ∧
    (∀ other : NetMsg, other.type = Success → other.sequence ≠ c.dataSequence →
      StdMap.find ((c.registered type s).receiveMessage other).2.promises c.nextPromise =
        some none) := by
  refine ⟨?_, ?_⟩
  · intro pre resp post harr ht hs hpre
    rw [c.performRequest_outcome type s arrivals, c.handle_eq_firstResponse type s arrivals h,
      harr, EthereumRPCClient.firstResponse_append pre post resp c.dataSequence ht hs hpre]
  · intro other ht hs
    have hr := c.registered_pending type s h
    rw [((c.registered type s).receiveMessage_other c.dataSequence c.nextPromise other hr.1 ht
      hs).2]
    exact hr.2

/-- C13, witness: the first request of `sampleClient`, with the sequence
number 0, on the connection where a Success response with the number 1, a
response of type 2 and two Success responses with the number 0 arrive. The
call returns the payload `[0x01]` of the first Success response with the
number 0. -/
theorem performRequest_correlates_by_sequence_witness :
    sampleClient.canRegister ∧
    crowdedReply (sampleClient.request (sampleCodes.code RequestBalanceAt)
        (EthereumRPCClient.blockQueryRequest addressAA 10)) =
      [⟨9, 1, Success, RLP.data [0x09]⟩, ⟨9, 0, 2, RLP.null⟩] ++
        firstSuccess :: [secondSuccess] ∧
    (sampleClient.performRequest (sampleCodes.code RequestBalanceAt)
        (EthereumRPCClient.blockQueryRequest addressAA 10) crowdedReply).1 =
      .ok (RLP.data [0x01]) :=
  ⟨⟨rfl, rfl, fun _ he => nomatch he⟩, rfl,
    (performRequest_correlates_by_sequence sampleClient (sampleCodes.code RequestBalanceAt)
      (EthereumRPCClient.blockQueryRequest addressAA 10) crowdedReply
      ⟨rfl, rfl, fun _ he => nomatch he⟩).1
      [⟨9, 1, Success, RLP.data [0x09]⟩, ⟨9, 0, 2, RLP.null⟩] firstSuccess [secondSuccess]
      rfl rfl rfl
      (by
        intro m hm
        rcases List.mem_cons.mp hm with hm | hm
        · rw [hm]
          exact fun h => absurd h.2 (by decide)
        · rw [List.mem_singleton.mp hm]
          exact fun h => absurd h.1 (by decide))⟩

/-! ### C14: the timeout error -/

/-- C14. `performRequest` raises `RPCRequestTimeout` if and only if its
handle has not been fulfilled when the wait ends; when the handle has been
fulfilled, the call returns the payload of the response it holds and does not
raise the timeout error. -/
theorem performRequest_timeout_iff_unfulfilled (c : EthereumRPCClient) (type : NetMsgType)
    (s : RLPStream) (arrivals : NetMsg → List NetMsg) :
    ((c.performRequest type s arrivals).1 = .error .RPCRequestTimeout ↔
      c.handle type s arrivals = none) ∧
    (∀ m, c.handle type s arrivals = some m →
      (c.performRequest type s arrivals).1 = .ok m.rlp ∧
      (c.performRequest type s arrivals).1 ≠ .error .RPCRequestTimeout) := by
  rw [c.performRequest_outcome type s arrivals]
  cases hh : c.handle type s arrivals with
  | none =>
    refine ⟨⟨fun _ => rfl, fun _ => rfl⟩, ?_⟩
    intro m hm
    cases hm
  | some m0 =>
    refine ⟨⟨fun h => (by cases h), fun h => (by cases h)⟩, ?_⟩
    intro m hm
    cases hm
    exact ⟨rfl, fun h => by cases h⟩

/-- C14, witness: on the connection where nothing arrives the handle stays
unset and the call raises the timeout error; on the crowded connection the
handle holds the first Success response and the call returns its payload. -/
theorem performRequest_timeout_iff_unfulfilled_witness :
    sampleClient.handle (sampleCodes.code RequestBalanceAt)
        (EthereumRPCClient.blockQueryRequest addressAA 10) silence = none ∧
    (sampleClient.performRequest (sampleCodes.code RequestBalanceAt)
        (EthereumRPCClient.blockQueryRequest addressAA 10) silence).1 =
      .error .RPCRequestTimeout ∧
    sampleClient.handle (sampleCodes.code RequestBalanceAt)
        (EthereumRPCClient.blockQueryRequest addressAA 10) crowdedReply = some firstSuccess ∧
    (sampleClient.performRequest (sampleCodes.code RequestBalanceAt)
        (EthereumRPCClient.blockQueryRequest addressAA 10) crowdedReply).1 =
      .ok firstSuccess.rlp :=
  ⟨rfl,
    (performRequest_timeout_iff_unfulfilled sampleClient (sampleCodes.code RequestBalanceAt)
      (EthereumRPCClient.blockQueryRequest addressAA 10) silence).1.mpr rfl,
    rfl,
    ((performRequest_timeout_iff_unfulfilled sampleClient (sampleCodes.code RequestBalanceAt)
      (EthereumRPCClient.blockQueryRequest addressAA 10) crowdedReply).2 firstSuccess rfl).1⟩

/-! ### C17: the table after `performRequest` -/

/-- The receive path leaves every entry that the table holds. -/
theorem EthereumRPCClient.receiveMessage_keeps (c : EthereumRPCClient) (msg : NetMsg) (k : Nat)
    (v : Option Nat) (h : StdMap.find c.m_promises k = some v) :
    StdMap.find (c.receiveMessage msg).2.m_promises k = some v := by
  by_cases ht : msg.type = Success
  · cases hf : StdMap.find c.m_promises msg.sequence with
    | none =>
      have hne : msg.sequence ≠ k := by
        intro hk
        rw [hk, h] at hf
        cases hf
      simp only [EthereumRPCClient.receiveMessage, ht, if_true, StdMap.index, hf]
      show StdMap.find (StdMap.insert c.m_promises msg.sequence none) k = some v
      rw [StdMap.find_insert_ne c.m_promises k msg.sequence none hne]
      exact h
    | some w =>
      cases w with
      | none =>
        simp only [EthereumRPCClient.receiveMessage, ht, if_true, StdMap.index, hf]
        exact h
      | some q =>
        simp only [EthereumRPCClient.receiveMessage, ht, if_true, StdMap.index, hf]
        rw [EthereumRPCClient.set_value_m_promises]
        exact h
  · rw [c.receiveMessage_not_success msg ht]
    exact h

/-- The handler leaves every entry that the table holds, however many
messages arrive. -/
theorem EthereumRPCClient.foldl_receiveMessage_keeps (l : List NetMsg) (c : EthereumRPCClient)
    (k : Nat) (v : Option Nat) (h : StdMap.find c.m_promises k = some v) :
    StdMap.find (List.foldl (fun c m => (c.receiveMessage m).2) c l).m_promises k = some v := by
  induction l generalizing c with
  | nil => exact h
  | cons m l ih =>
    rw [List.foldl_cons]
    exact ih (c.receiveMessage m).2 (c.receiveMessage_keeps m k v h)

/-- C17. Whenever `performRequest` finishes, with a payload or with
`RPCRequestTimeout`, the correlation table holds no entry under the sequence
number that the call registered, and every entry that the table held under
another sequence number, registered by another call, is still there with the
same pointer. -/
theorem performRequest_erases_own_entry (c : EthereumRPCClient) (type : NetMsgType)
    (s : RLPStream) (arrivals : NetMsg → List NetMsg) :
    StdMap.find (c.performRequest type s arrivals).2.m_promises c.dataSequence = none ∧
    (∀ k v, k ≠ c.dataSequence → StdMap.find c.m_promises k = some v →
      StdMap.find (c.performRequest type s arrivals).2.m_promises k = some v) ∧
    ((c.performRequest type s arrivals).1 = .error .RPCRequestTimeout ∨
      ∃ m, (c.performRequest type s arrivals).1 = .ok m) := by
  rw [c.performRequest_m_promises type s arrivals]
  refine ⟨StdMap.find_erase_self _ _, ?_, ?_⟩
  · intro k v hk hv
    rw [StdMap.find_erase_ne _ k c.dataSequence (fun h => hk h.symm)]
    apply EthereumRPCClient.foldl_receiveMessage_keeps
    show StdMap.find (StdMap.insert c.m_promises c.dataSequence (some c.nextPromise)) k = some v
    rw [StdMap.find_insert_ne c.m_promises k c.dataSequence _ (fun h => hk h.symm)]
    exact hv
  · rw [c.performRequest_outcome type s arrivals]
    cases c.handle type s arrivals with
    | none => exact Or.inl rfl
    | some m => exact Or.inr ⟨m.rlp, rfl⟩

/-- C17, witness: a client whose table holds the entry of another call under
the sequence number 5 makes a request with the sequence number 6, on the
crowded connection and on the silent one. -/
theorem performRequest_erases_own_entry_witness :
    (5 : Nat) ≠ busyClient.dataSequence ∧
    StdMap.find busyClient.m_promises 5 = some (some 3) ∧
    StdMap.find (busyClient.performRequest (sampleCodes.code RequestBalanceAt)
        (EthereumRPCClient.blockQueryRequest addressAA 10) crowdedReply).2.m_promises 5 =
      some (some 3) ∧
    StdMap.find (busyClient.performRequest (sampleCodes.code RequestBalanceAt)
        (EthereumRPCClient.blockQueryRequest addressAA 10) silence).2.m_promises 6 = none :=
  ⟨by decide, rfl,
    (performRequest_erases_own_entry busyClient (sampleCodes.code RequestBalanceAt)
      (EthereumRPCClient.blockQueryRequest addressAA 10) crowdedReply).2.1 5 (some 3)
      (by decide) rfl,
    (performRequest_erases_own_entry busyClient (sampleCodes.code RequestBalanceAt)
      (EthereumRPCClient.blockQueryRequest addressAA 10) silence).1⟩

/-! ### C15: a message of unrecognised type -/

/-- For a type code outside the ten kinds the `switch` takes its `default`
branch: it leaves the node state as it is and answers with type 2 and an
empty stream. -/
theorem EthereumRPCServer.dispatch_unimplemented {σ : Type} (self : EthereumRPCServer σ)
    (kind : Option EthereumRPCRequest) (req : RLP) (st : σ)
    (h : ∀ k, kind = some k → k.implemented = false) :
    self.dispatch kind req st = .ok ((2, RLPStream.empty), st) := by
  cases kind with
  | none => rfl
  | some k =>
    have := h k rfl
    cases k <;> simp [EthereumRPCRequest.implemented] at this
    rfl

/-- C15. Processing a message of unrecognised type invokes no node
operation: the node state is left as it is, whatever the node (on a recording
node the log of invocations is left as it is), and the dispatcher has no
state of its own. So the outcome of any subsequent request, the response
included, is what it would have been had the message of unrecognised type
never been received. -/
theorem receiveMessage_unknown_type_no_effect {σ : Type} (codes : RequestCodes)
    (self : EthereumRPCServer σ) (msg : NetMsg) (st : σ)
    (h : ∀ k, codes.kindOf msg.type = some k → k.implemented = false) :
    (self.receiveMessage codes msg st).1 = .ok st ∧
    (∀ sid r log, (EthereumRPCServer.receiveMessage codes ⟨sid, recorder r⟩ msg log).1 =
      .ok log) ∧
    (∀ next st1, (self.receiveMessage codes msg st).1 = .ok st1 →
      self.receiveMessage codes next st1 = self.receiveMessage codes next st) := by
  have hst : (self.receiveMessage codes msg st).1 = .ok st := by
    simp [EthereumRPCServer.receiveMessage, self.dispatch_unimplemented _ msg.rlp st h]
  refine ⟨hst, ?_, ?_⟩
  · intro sid r log
    simp [EthereumRPCServer.receiveMessage,
      EthereumRPCServer.dispatch_unimplemented ⟨sid, recorder r⟩ _ msg.rlp log h]
  · intro next st1 h1
    rw [hst] at h1
    cases h1
    rfl

/-- C15, witness: the message of type code 99, followed by the BalanceAt
request with three fields; the recording node logs the invocation of the
request and nothing else. -/
theorem receiveMessage_unknown_type_no_effect_witness :
    (∀ k, sampleCodes.kindOf unknownTypeRequest.type = some k → k.implemented = false) ∧
    (sampleServer.receiveMessage sampleCodes unknownTypeRequest []).1 = .ok [] ∧
    sampleServer.receiveMessage sampleCodes longBalanceRequest [] =
      (.ok [Call.balanceAt addressAA 10], [⟨9, 7, 1, RLP.list [RLP.ofU256 500]⟩]) :=
  ⟨fun k hk => Option.noConfusion (show none = some k from hk),
    (receiveMessage_unknown_type_no_effect sampleCodes sampleServer unknownTypeRequest []
      (fun k hk => Option.noConfusion (show none = some k from hk))).1,
    ((receiveMessage_unknown_type_no_effect sampleCodes sampleServer unknownTypeRequest []
      (fun k hk => Option.noConfusion (show none = some k from hk))).2.2
      longBalanceRequest [] rfl).symm ▸ rfl⟩

/-! ### C16: the lock of the correlation table -/

/-- C16, the code at the failing input. `performRequest` makes both its
accesses to the table, the insert and the erase, while it holds the lock.
The receive path, given a Success response, makes its access
`m_promises[sequence]` while no lock is held. -/
theorem receiveMessage_accesses_table_unlocked :
    heldAtEveryAccess false EthereumRPCClient.performRequestLocking = true ∧
    EthereumRPCClient.receiveMessageLocking ⟨9, 7, Success, RLP.null⟩ = [LockEvent.access] ∧
    heldAtEveryAccess false
      (EthereumRPCClient.receiveMessageLocking ⟨9, 7, Success, RLP.null⟩) = false :=
  ⟨rfl, rfl, rfl⟩

/-! ### C18: the payload of StorageAt -/

/-- Appending a pair appends one item: the list of its two members. -/
theorem RLPStream.appendPair_eq (out : List RLP) (stack : List (Nat × List RLP))
    (kv : u256 × u256) :
    RLPStream.appendPair ⟨out, stack⟩ kv = RLPStream.noteAppended out stack (RLP.ofPair kv) := by
  simp [RLPStream.appendPair, RLPStream.appendList, RLPStream.appendU256, RLPStream.appendItem,
    RLPStream.noteAppended, RLP.ofPair]

/-- The loop over a mapping that is not empty fills the inner list, which
closes the outer list in turn. -/
theorem RLPStream.foldl_appendPair (store : Storage) (acc out : List RLP) (hne : store ≠ []) :
    List.foldl RLPStream.appendPair ⟨out, [(store.length, acc), (1, [])]⟩ store =
      ⟨out ++ [RLP.list [RLP.list (acc ++ store.map RLP.ofPair)]], []⟩ := by
  induction store generalizing acc with
  | nil => exact absurd rfl hne
  | cons kv rest ih =>
    rw [List.foldl_cons, RLPStream.appendPair_eq]
    cases rest with
    | nil => simp [RLPStream.noteAppended]
    | cons kv2 rest2 =>
      have hstep : RLPStream.noteAppended out
          [((kv :: kv2 :: rest2).length, acc), (1, [])] (RLP.ofPair kv) =
          ⟨out, [((kv2 :: rest2).length, acc ++ [RLP.ofPair kv]), (1, [])]⟩ := by
        simp [RLPStream.noteAppended]
      rw [hstep, ih (acc ++ [RLP.ofPair kv]) (by simp)]
      simp

/-- The payload that the StorageAt case writes: the one-element list of the
list of the entries. -/
theorem RLPStream.storage_out (store : Storage) :
    (List.foldl RLPStream.appendPair
      ((RLPStream.empty.appendList 1).appendList store.length) store).out =
      RLP.list [RLP.list (store.map RLP.ofPair)] := by
  cases store with
  | nil => rfl
  | cons kv rest =>
    have h : (RLPStream.empty.appendList 1).appendList (kv :: rest).length =
        ⟨[], [((kv :: rest).length, []), (1, [])]⟩ := by
      simp [RLPStream.appendList, RLPStream.empty]
    rw [h, RLPStream.foldl_appendPair (kv :: rest) [] [] (by simp)]
    simp [RLPStream.out]

/-- C18. For every storage mapping that the node returns, the payload of
the StorageAt response is a one-element list whose single element is a list
of exactly as many sub-lists as the mapping has entries: the two-element
lists `[key, value]`, one per entry, in the order in which the mapping is
iterated, which is the ascending order of the keys. The keys read from the
sub-lists are the keys of the mapping, in that order. -/
theorem storageAt_response_payload {σ : Type} (codes : RequestCodes)
    (self : EthereumRPCServer σ) (msg : NetMsg) (st st1 : σ) (a : Address) (block : Nat)
    (store : Storage)
    (hk : codes.kindOf msg.type = some RequestStorageAt)
    (h0 : (msg.rlp.idx 0).toHash 20 = .ok a) (h1 : (msg.rlp.idx 1).toInt = .ok block)
    (hc : self.ethereum.storageAt a (intOfUnsigned block) st = .ok (store, st1)) :
    self.receiveMessage codes msg st =
      (.ok st1, [⟨self.serviceId, msg.sequence, Success,
        RLP.list [RLP.list (store.map RLP.ofPair)]⟩]) ∧
    (store.map RLP.ofPair).length = store.length ∧
    (∀ kv, RLP.ofPair kv = RLP.list [RLP.ofU256 kv.1, RLP.ofU256 kv.2]) ∧
    (store.map RLP.ofPair).map (fun p => (p.idx 0).toInt256) =
      store.map (fun kv => Except.ok kv.1) ∧
    (List.Pairwise (fun x y => x.1 < y.1) store →
      List.Pairwise (fun x y => x < y)
        ((store.map RLP.ofPair).map (fun p => (p.idx 0).toInt256.toOption.getD 0))) := by
  have hkeys : ∀ kv : u256 × u256, ((RLP.ofPair kv).idx 0).toInt256 = .ok kv.1 := by
    intro kv
    simp [RLP.ofPair, RLP.idx, RLP.toInt256_ofU256]
  refine ⟨?_, by simp, fun _ => rfl, ?_, ?_⟩
  · simp [EthereumRPCServer.receiveMessage, EthereumRPCServer.dispatch, hk, h0, h1, hc, bind,
      Except.bind, pure, Except.pure, RLPStream.storage_out]
    rfl
  · simp [List.map_map, Function.comp, hkeys]
  · intro hs
    rw [List.map_map, List.pairwise_map]
    refine hs.imp ?_
    intro x y hxy
    simpa [Function.comp, hkeys, Except.toOption] using hxy

/-- C18, witness: a node whose store holds the two entries 1 -> 10 and
2 -> 20. -/
theorem storageAt_response_payload_witness :
    sampleCodes.kindOf (sampleCodes.code RequestStorageAt) = some RequestStorageAt ∧
    EthereumRPCServer.receiveMessage sampleCodes
        ⟨9, recorder { sampleReturns with storage := [(1, 10), (2, 20)] }⟩
        ⟨9, 0, sampleCodes.code RequestStorageAt,
          (EthereumRPCClient.blockQueryRequest addressAA 10).out⟩ [] =
      (.ok [Call.storageAt addressAA 10],
        [⟨9, 0, Success, RLP.list [RLP.list [RLP.list [RLP.data [1], RLP.data [10]],
          RLP.list [RLP.data [2], RLP.data [20]]]]⟩]) :=
  ⟨rfl,
    (storageAt_response_payload sampleCodes
      ⟨9, recorder { sampleReturns with storage := [(1, 10), (2, 20)] }⟩
      ⟨9, 0, sampleCodes.code RequestStorageAt,
        (EthereumRPCClient.blockQueryRequest addressAA 10).out⟩ [] [Call.storageAt addressAA 10]
      addressAA 10 [(1, 10), (2, 20)] rfl rfl rfl rfl).1⟩

/-! ### C19: more fields than the kind declares -/

/-- A position within the first fields of a list holds the same item with
and without the fields that follow them. -/
theorem RLP.idx_append (fields extra : List RLP) (i : Nat) (h : i < fields.length) :
    (RLP.list (fields ++ extra)).idx i = (RLP.list fields).idx i := by
  simp [RLP.idx, List.getD_eq_getElem?_getD, List.getElem?_append_left h]

/-- The `switch` reads the declared fields by position and nothing else: the
fields that follow them do not change its outcome. -/
theorem EthereumRPCServer.dispatch_ignores_surplus {σ : Type} (self : EthereumRPCServer σ)
    (k : EthereumRPCRequest) (fields extra : List RLP) (st : σ)
    (h : k.arity ≤ fields.length) :
    self.dispatch (some k) (RLP.list (fields ++ extra)) st =
      self.dispatch (some k) (RLP.list fields) st := by
  cases k <;> simp only [EthereumRPCRequest.arity] at h
  case RequestFlushTransactions => rfl
  case RequestMessages => rfl
  case RequestSubmitTransaction =>
    simp only [EthereumRPCServer.dispatch, RLP.idx_append fields extra 0 (by omega),
      RLP.idx_append fields extra 1 (by omega), RLP.idx_append fields extra 2 (by omega),
      RLP.idx_append fields extra 3 (by omega), RLP.idx_append fields extra 4 (by omega),
      RLP.idx_append fields extra 5 (by omega)]
  case RequestCallTransaction =>
    simp only [EthereumRPCServer.dispatch, RLP.idx_append fields extra 0 (by omega),
      RLP.idx_append fields extra 1 (by omega), RLP.idx_append fields extra 2 (by omega),
      RLP.idx_append fields extra 3 (by omega), RLP.idx_append fields extra 4 (by omega),
      RLP.idx_append fields extra 5 (by omega)]
  case RequestCreateContract =>
    simp only [EthereumRPCServer.dispatch, RLP.idx_append fields extra 0 (by omega),
      RLP.idx_append fields extra 1 (by omega), RLP.idx_append fields extra 2 (by omega),
      RLP.idx_append fields extra 3 (by omega), RLP.idx_append fields extra 4 (by omega)]
  case RequestRLPInject =>
    simp only [EthereumRPCServer.dispatch, RLP.idx_append fields extra 0 (by omega)]
  case RequestStateAt =>
    simp only [EthereumRPCServer.dispatch, RLP.idx_append fields extra 0 (by omega),
      RLP.idx_append fields extra 1 (by omega), RLP.idx_append fields extra 2 (by omega)]
  all_goals
    simp only [EthereumRPCServer.dispatch, RLP.idx_append fields extra 0 (by omega),
      RLP.idx_append fields extra 1 (by omega)]

/-- C19, counterexample. The claim has a request with more fields than its
kind declares answered with type 2, no node operation being invoked. The
BalanceAt request with three fields makes the dispatcher invoke `balanceAt`
with the address and the block reference of its first two fields, and the
response is a Success with the balance. -/
theorem receiveMessage_surplus_field_succeeds :
    sampleCodes.kindOf longBalanceRequest.type = some RequestBalanceAt ∧
    RequestBalanceAt.arity < longBalanceRequest.rlp.items.length ∧
    sampleServer.receiveMessage sampleCodes longBalanceRequest [] =
      (.ok [Call.balanceAt addressAA 10], [⟨9, 7, 1, RLP.list [RLP.ofU256 500]⟩]) ∧
    (sampleServer.receiveMessage sampleCodes longBalanceRequest []).2 ≠
      [⟨9, 7, 2, RLP.null⟩] := by
  refine ⟨rfl, by decide, rfl, ?_⟩
  intro h
  cases h

/-- C19, amended. For a request of a known kind whose payload carries more
fields than that kind declares, the dispatcher ignores the surplus: it reads
the declared fields by position, and the outcome of `receiveMessage` (the
node operation invoked, the node state, the response) is that of the same
request without the surplus fields. -/
theorem receiveMessage_ignores_surplus_fields {σ : Type} (codes : RequestCodes)
    (self : EthereumRPCServer σ) (service sequence : Nat) (type : NetMsgType)
    (k : EthereumRPCRequest) (fields extra : List RLP) (st : σ)
    (hk : codes.kindOf type = some k) (h : k.arity ≤ fields.length) :
    self.receiveMessage codes ⟨service, sequence, type, RLP.list (fields ++ extra)⟩ st =
      self.receiveMessage codes ⟨service, sequence, type, RLP.list fields⟩ st := by
  simp only [EthereumRPCServer.receiveMessage, hk,
    self.dispatch_ignores_surplus k fields extra st h]

/-- C19, witness: the BalanceAt request with three fields has the outcome of
the request with its first two fields. -/
theorem receiveMessage_ignores_surplus_fields_witness :
    sampleCodes.kindOf (sampleCodes.code RequestBalanceAt) = some RequestBalanceAt ∧
    RequestBalanceAt.arity ≤ [RLP.ofHash addressAA, RLP.ofUnsigned 10].length ∧
    sampleServer.receiveMessage sampleCodes longBalanceRequest [] =
      sampleServer.receiveMessage sampleCodes
        ⟨9, 7, sampleCodes.code RequestBalanceAt,
          RLP.list [RLP.ofHash addressAA, RLP.ofUnsigned 10]⟩ [] :=
  ⟨rfl, by decide,
    receiveMessage_ignores_surplus_fields sampleCodes sampleServer 9 7
      (sampleCodes.code RequestBalanceAt) RequestBalanceAt
      [RLP.ofHash addressAA, RLP.ofUnsigned 10] [RLP.data [0x01]] [] rfl (by decide)⟩

end EthereumRPC
